import Mathlib

/-!
Verification of the pimalaya-core synchronization engine and backend surface.

Shallow embedding of the Rust sources:
* `src/email/src/folder/sync/patch.rs` (folder diff engine, hunk executor)
* `src/email/src/email/sync/mod.rs` (email hunk executor)
* `src/email/src/backend/mod.rs` (dynamic backend feature registry)
* `src/email/src/backend/maildir/mod.rs` (maildir list/preview/get)
* `src/email/src/email/envelope/list/notmuch.rs` (notmuch listing)
* `src/mml/src/message/interpreter.rs` (MIME to MML interpreter)
* `src/email/src/smtp/mod.rs` (SMTP send with OAuth retry)

Sets of folder names (`FoldersName = HashSet<String>`) are modelled as
`Finset String`; hash maps keyed by folder names are modelled as a pair of
the key set and a total assignment function.
-/

namespace Pimalaya

/-- Model of `SyncDestination` from `src/email/src/sync` : the two sides being
synchronized. -/
inductive SyncDestination where
  | Left
  | Right
  deriving DecidableEq, Repr

/-- Model of `FolderSyncHunk` from `src/email/src/folder/sync`: one atomic folder
change produced by the folder diff engine. -/
inductive FolderSyncHunk where
  | Cache (folder : String) (dest : SyncDestination)
  | Uncache (folder : String) (dest : SyncDestination)
  | Create (folder : String) (dest : SyncDestination)
  | Delete (folder : String) (dest : SyncDestination)
  deriving DecidableEq, Repr

/-- The folder a folder-sync hunk references. -/
def FolderSyncHunk.folder : FolderSyncHunk → String
  | .Cache f _ => f
  | .Uncache f _ => f
  | .Create f _ => f
  | .Delete f _ => f

/-- Model of `build_patch` from `src/email/src/folder/sync/patch.rs` (lines 350-477).
The source gathers the union of the four folder-name sets into a `HashSet`,
then maps every folder of the union to the hunk list given by the 16-way
match on the presence of the folder in each of the four sets.  The resulting
`HashMap<FolderName, FolderSyncPatch>` is modelled as the pair of its key
set and its (total) lookup function; a folder outside the key set is mapped
to the empty patch, exactly as a missing `HashMap` key. -/
def build_patch (local_cache locals remote_cache remote : Finset String) :
    Finset String × (String → List FolderSyncHunk) :=
  let folders := local_cache ∪ locals ∪ remote_cache ∪ remote
  (folders, fun folder =>
    let lc : Option String := if folder ∈ local_cache then some folder else none
    let l : Option String := if folder ∈ locals then some folder else none
    let rc : Option String := if folder ∈ remote_cache then some folder else none
    let r : Option String := if folder ∈ remote then some folder else none
    match lc, l, rc, r with
    -- 0000
    | none, none, none, none => []
    -- 0001
    | none, none, none, some _ =>
      [FolderSyncHunk.Cache folder SyncDestination.Left,
       FolderSyncHunk.Create folder SyncDestination.Left,
       FolderSyncHunk.Cache folder SyncDestination.Right]
    -- 0010
    | none, none, some _, none =>
      [FolderSyncHunk.Uncache folder SyncDestination.Right]
    -- 0011
    | none, none, some _, some _ =>
      [FolderSyncHunk.Cache folder SyncDestination.Left,
       FolderSyncHunk.Create folder SyncDestination.Left]
    -- 0100
    | none, some _, none, none =>
      [FolderSyncHunk.Cache folder SyncDestination.Left,
       FolderSyncHunk.Cache folder SyncDestination.Right,
       FolderSyncHunk.Create folder SyncDestination.Right]
    -- 0101
    | none, some _, none, some _ =>
      [FolderSyncHunk.Cache folder SyncDestination.Left,
       FolderSyncHunk.Cache folder SyncDestination.Right]
    -- 0110
    | none, some _, some _, none =>
      [FolderSyncHunk.Cache folder SyncDestination.Left,
       FolderSyncHunk.Create folder SyncDestination.Right]
    -- 0111
    | none, some _, some _, some _ =>
      [FolderSyncHunk.Cache folder SyncDestination.Left]
    -- 1000
    | some _, none, none, none =>
      [FolderSyncHunk.Uncache folder SyncDestination.Left]
    -- 1001
    | some _, none, none, some _ =>
      [FolderSyncHunk.Create folder SyncDestination.Left,
       FolderSyncHunk.Cache folder SyncDestination.Right]
    -- 1010
    | some _, none, some _, none =>
      [FolderSyncHunk.Uncache folder SyncDestination.Left,
       FolderSyncHunk.Uncache folder SyncDestination.Right]
    -- 1011
    | some _, none, some _, some _ =>
      [FolderSyncHunk.Uncache folder SyncDestination.Left,
       FolderSyncHunk.Uncache folder SyncDestination.Right,
       FolderSyncHunk.Delete folder SyncDestination.Right]
    -- 1100
    | some _, some _, none, none =>
      [FolderSyncHunk.Cache folder SyncDestination.Right,
       FolderSyncHunk.Create folder SyncDestination.Right]
    -- 1101
    | some _, some _, none, some _ =>
      [FolderSyncHunk.Cache folder SyncDestination.Right]
    -- 1110
    | some _, some _, some _, none =>
      [FolderSyncHunk.Uncache folder SyncDestination.Left,
       FolderSyncHunk.Delete folder SyncDestination.Left,
       FolderSyncHunk.Uncache folder SyncDestination.Right]
    -- 1111
    | some _, some _, some _, some _ => [])

/-- The 16-row folder table of spec section 4.1, transcribed from the spec's
words: row `(lc, l, rc, r)` lists the hunks in the required apply order,
`Side L` meaning `Left` and `R` meaning `Right`. -/
def folderTableSpec (folder : String) : Bool → Bool → Bool → Bool → List FolderSyncHunk
  | false, false, false, false => []
  | false, false, false, true =>
    [FolderSyncHunk.Cache folder SyncDestination.Left,
     FolderSyncHunk.Create folder SyncDestination.Left,
     FolderSyncHunk.Cache folder SyncDestination.Right]
  | false, false, true, false =>
    [FolderSyncHunk.Uncache folder SyncDestination.Right]
  | false, false, true, true =>
    [FolderSyncHunk.Cache folder SyncDestination.Left,
     FolderSyncHunk.Create folder SyncDestination.Left]
  | false, true, false, false =>
    [FolderSyncHunk.Cache folder SyncDestination.Left,
     FolderSyncHunk.Cache folder SyncDestination.Right,
     FolderSyncHunk.Create folder SyncDestination.Right]
  | false, true, false, true =>
    [FolderSyncHunk.Cache folder SyncDestination.Left,
     FolderSyncHunk.Cache folder SyncDestination.Right]
  | false, true, true, false =>
    [FolderSyncHunk.Cache folder SyncDestination.Left,
     FolderSyncHunk.Create folder SyncDestination.Right]
  | false, true, true, true =>
    [FolderSyncHunk.Cache folder SyncDestination.Left]
  | true, false, false, false =>
    [FolderSyncHunk.Uncache folder SyncDestination.Left]
  | true, false, false, true =>
    [FolderSyncHunk.Create folder SyncDestination.Left,
     FolderSyncHunk.Cache folder SyncDestination.Right]
  | true, false, true, false =>
    [FolderSyncHunk.Uncache folder SyncDestination.Left,
     FolderSyncHunk.Uncache folder SyncDestination.Right]
  | true, false, true, true =>
    [FolderSyncHunk.Uncache folder SyncDestination.Left,
     FolderSyncHunk.Uncache folder SyncDestination.Right,
     FolderSyncHunk.Delete folder SyncDestination.Right]
  | true, true, false, false =>
    [FolderSyncHunk.Cache folder SyncDestination.Right,
     FolderSyncHunk.Create folder SyncDestination.Right]
  | true, true, false, true =>
    [FolderSyncHunk.Cache folder SyncDestination.Right]
  | true, true, true, false =>
    [FolderSyncHunk.Uncache folder SyncDestination.Left,
     FolderSyncHunk.Delete folder SyncDestination.Left,
     FolderSyncHunk.Uncache folder SyncDestination.Right]
  | true, true, true, true => []

/-- Every hunk of the row for `folder` references `folder`. -/
lemma folderTableSpec_folder_eq (f : String) (a b c d : Bool) :
    ∀ h ∈ folderTableSpec f a b c d, h.folder = f := by
  cases a <;> cases b <;> cases c <;> cases d <;>
    simp [folderTableSpec, FolderSyncHunk.folder]

/-- The lookup function of `build_patch` agrees with the spec table on every
folder (inside or outside the key set; outside, both give the empty row). -/
lemma build_patch_eq_table (Lc L Rc R : Finset String) (f : String) :
    (build_patch Lc L Rc R).2 f =
      folderTableSpec f (decide (f ∈ Lc)) (decide (f ∈ L)) (decide (f ∈ Rc))
        (decide (f ∈ R)) := by
  by_cases h1 : f ∈ Lc <;> by_cases h2 : f ∈ L <;> by_cases h3 : f ∈ Rc <;>
    by_cases h4 : f ∈ R <;>
      simp [build_patch, folderTableSpec, h1, h2, h3, h4]

/-- C1: `build_patch` returns a map whose key set is exactly
`Lc ∪ L ∪ Rc ∪ R`; every folder of the union is mapped to exactly the hunk
list of the spec's section 4.1 table row selected by its presence vector, in
the row's order; and every hunk in a folder's list references that folder. -/
theorem build_patch_matches_spec_table (Lc L Rc R : Finset String) :
    (∀ f, f ∈ (build_patch Lc L Rc R).1 ↔ (f ∈ Lc ∨ f ∈ L ∨ f ∈ Rc ∨ f ∈ R)) ∧
    (∀ f, (build_patch Lc L Rc R).2 f =
      folderTableSpec f (decide (f ∈ Lc)) (decide (f ∈ L)) (decide (f ∈ Rc))
        (decide (f ∈ R))) ∧
    (∀ f, ∀ h ∈ (build_patch Lc L Rc R).2 f, h.folder = f) := by
  refine ⟨fun f => ?_, fun f => build_patch_eq_table Lc L Rc R f, fun f h hh => ?_⟩
  · simp [build_patch, Finset.mem_union, or_assoc]
  · rw [build_patch_eq_table] at hh
    exact folderTableSpec_folder_eq f _ _ _ _ h hh

/-- Every hunk produced by `build_patch` for folder `f` references `f`
(shared helper, also behind invariant I1). -/
lemma build_patch_hunk_folder (Lc L Rc R : Finset String) (f : String) :
    ∀ h ∈ (build_patch Lc L Rc R).2 f, h.folder = f := by
  intro h hh
  rw [build_patch_eq_table] at hh
  exact folderTableSpec_folder_eq f _ _ _ _ h hh

/-- The four folder-name sets of one sync side pair: left cache, left
backend, right cache, right backend (the inputs of `build_patch`). -/
structure FolderState where
  local_cache : Finset String
  locals : Finset String
  remote_cache : Finset String
  remote : Finset String
  deriving DecidableEq

/-- Executing one folder hunk, from `FolderSyncPatchManager::process_hunk`
and the cache transaction of `apply_patches`
(`src/email/src/folder/sync/patch.rs` lines 197-334): `Cache` inserts the
folder into the side's cache (`FolderSyncCacheHunk::Insert`), `Uncache`
removes it (`FolderSyncCacheHunk::Delete`), `Create` calls the side's
`add_folder`, `Delete` the side's `delete_folder`. -/
def applyFolderHunk (s : FolderState) : FolderSyncHunk → FolderState
  | .Cache f .Left => { s with local_cache := insert f s.local_cache }
  | .Cache f .Right => { s with remote_cache := insert f s.remote_cache }
  | .Create f .Left => { s with locals := insert f s.locals }
  | .Create f .Right => { s with remote := insert f s.remote }
  | .Uncache f .Left => { s with local_cache := s.local_cache.erase f }
  | .Uncache f .Right => { s with remote_cache := s.remote_cache.erase f }
  | .Delete f .Left => { s with locals := s.locals.erase f }
  | .Delete f .Right => { s with remote := s.remote.erase f }

/-- Executing a folder patch (list of hunks) in order. -/
def applyFolderHunks (s : FolderState) (hs : List FolderSyncHunk) : FolderState :=
  hs.foldl applyFolderHunk s

/-- Executing the per-folder patches of a whole folder patch map, folder by
folder. -/
def foldFolders (P : String → List FolderSyncHunk) (t : FolderState)
    (L : List String) : FolderState :=
  L.foldl (fun u g => applyFolderHunks u (P g)) t

/-- One full folder sync run: build the patch from the current state, then
apply every folder's hunk list. -/
def runFolderSync (s : FolderState) : FolderState :=
  foldFolders (build_patch s.local_cache s.locals s.remote_cache s.remote).2 s
    ((build_patch s.local_cache s.locals s.remote_cache s.remote).1.sort (· ≤ ·))

/-- The presence vector of a folder in the four sets. -/
def bitsOf (s : FolderState) (f : String) : Bool × Bool × Bool × Bool :=
  (decide (f ∈ s.local_cache), decide (f ∈ s.locals),
   decide (f ∈ s.remote_cache), decide (f ∈ s.remote))

/-- The effect of a hunk on the presence vector of its own folder. -/
def bitApply (b : Bool × Bool × Bool × Bool) : FolderSyncHunk → Bool × Bool × Bool × Bool
  | .Cache _ .Left => (true, b.2.1, b.2.2.1, b.2.2.2)
  | .Cache _ .Right => (b.1, b.2.1, true, b.2.2.2)
  | .Create _ .Left => (b.1, true, b.2.2.1, b.2.2.2)
  | .Create _ .Right => (b.1, b.2.1, b.2.2.1, true)
  | .Uncache _ .Left => (false, b.2.1, b.2.2.1, b.2.2.2)
  | .Uncache _ .Right => (b.1, b.2.1, false, b.2.2.2)
  | .Delete _ .Left => (b.1, false, b.2.2.1, b.2.2.2)
  | .Delete _ .Right => (b.1, b.2.1, b.2.2.1, false)

lemma bitsOf_applyFolderHunk_self (t : FolderState) (f : String)
    (h : FolderSyncHunk) (hf : h.folder = f) :
    bitsOf (applyFolderHunk t h) f = bitApply (bitsOf t f) h := by
  cases h with
  | Cache g d =>
    cases d <;>
      (cases hf; simp [applyFolderHunk, bitApply, bitsOf, FolderSyncHunk.folder])
  | Uncache g d =>
    cases d <;>
      (cases hf; simp [applyFolderHunk, bitApply, bitsOf, FolderSyncHunk.folder])
  | Create g d =>
    cases d <;>
      (cases hf; simp [applyFolderHunk, bitApply, bitsOf, FolderSyncHunk.folder])
  | Delete g d =>
    cases d <;>
      (cases hf; simp [applyFolderHunk, bitApply, bitsOf, FolderSyncHunk.folder])

lemma bitsOf_applyFolderHunk_other (t : FolderState) (f : String)
    (h : FolderSyncHunk) (hf : h.folder ≠ f) :
    bitsOf (applyFolderHunk t h) f = bitsOf t f := by
  cases h with
  | Cache g d =>
    cases d <;>
      simp [applyFolderHunk, bitsOf, Finset.mem_insert,
        (Ne.symm (hf : g ≠ f) : f ≠ g)]
  | Uncache g d =>
    cases d <;>
      simp [applyFolderHunk, bitsOf, Finset.mem_erase,
        (Ne.symm (hf : g ≠ f) : f ≠ g)]
  | Create g d =>
    cases d <;>
      simp [applyFolderHunk, bitsOf, Finset.mem_insert,
        (Ne.symm (hf : g ≠ f) : f ≠ g)]
  | Delete g d =>
    cases d <;>
      simp [applyFolderHunk, bitsOf, Finset.mem_erase,
        (Ne.symm (hf : g ≠ f) : f ≠ g)]

lemma bitsOf_applyFolderHunks_self (f : String) (hs : List FolderSyncHunk)
    (h : ∀ x ∈ hs, x.folder = f) (t : FolderState) :
    bitsOf (applyFolderHunks t hs) f = hs.foldl bitApply (bitsOf t f) := by
  induction hs generalizing t with
  | nil => rfl
  | cons x xs ih =>
    have hx : x.folder = f := h x (by simp)
    have hxs : ∀ y ∈ xs, y.folder = f := fun y hy => h y (by simp [hy])
    simp only [applyFolderHunks, List.foldl_cons]
    rw [← bitsOf_applyFolderHunk_self t f x hx]
    exact ih hxs (applyFolderHunk t x)

lemma bitsOf_applyFolderHunks_other (f : String) (hs : List FolderSyncHunk)
    (h : ∀ x ∈ hs, x.folder ≠ f) (t : FolderState) :
    bitsOf (applyFolderHunks t hs) f = bitsOf t f := by
  induction hs generalizing t with
  | nil => rfl
  | cons x xs ih =>
    have hx : x.folder ≠ f := h x (by simp)
    have hxs : ∀ y ∈ xs, y.folder ≠ f := fun y hy => h y (by simp [hy])
    simp only [applyFolderHunks, List.foldl_cons]
    rw [← bitsOf_applyFolderHunk_other t f x hx]
    exact ih hxs (applyFolderHunk t x)

/-- Folding the table row of the own presence vector lands on all-present or
all-absent: pure 16-case bit computation. -/
lemma row_foldl_bitApply (f : String) (b1 b2 b3 b4 : Bool) :
    (folderTableSpec f b1 b2 b3 b4).foldl bitApply (b1, b2, b3, b4) =
        (true, true, true, true) ∨
      (folderTableSpec f b1 b2 b3 b4).foldl bitApply (b1, b2, b3, b4) =
        (false, false, false, false) := by
  cases b1 <;> cases b2 <;> cases b3 <;> cases b4 <;>
    simp [folderTableSpec, bitApply]

lemma foldFolders_not_mem (P : String → List FolderSyncHunk)
    (HP : ∀ g, ∀ x ∈ P g, x.folder = g) (f : String) (L : List String)
    (hf : f ∉ L) (t : FolderState) :
    bitsOf (foldFolders P t L) f = bitsOf t f := by
  induction L generalizing t with
  | nil => rfl
  | cons g L' ih =>
    have hfg : f ≠ g := fun e => hf (by simp [e])
    have hf' : f ∉ L' := fun e => hf (by simp [e])
    simp only [foldFolders, List.foldl_cons]
    have := ih hf' (applyFolderHunks t (P g))
    simp only [foldFolders] at this
    rw [this, bitsOf_applyFolderHunks_other f (P g)
      (fun x hx => by rw [HP g x hx]; exact Ne.symm hfg) t]

lemma foldFolders_mem (s : FolderState) (f : String) (L : List String)
    (hnd : L.Nodup) (hf : f ∈ L) (t : FolderState)
    (hbits : bitsOf t f = bitsOf s f) :
    bitsOf (foldFolders
        (build_patch s.local_cache s.locals s.remote_cache s.remote).2 t L) f
          = (true, true, true, true) ∨
      bitsOf (foldFolders
        (build_patch s.local_cache s.locals s.remote_cache s.remote).2 t L) f
          = (false, false, false, false) := by
  induction L generalizing t with
  | nil => cases hf
  | cons g L' ih =>
    have hnd' : L'.Nodup := hnd.of_cons
    by_cases hfg : f = g
    · subst hfg
      have hfL' : f ∉ L' := (List.nodup_cons.mp hnd).1
      simp only [foldFolders, List.foldl_cons]
      have hrow : ∀ x ∈ (build_patch s.local_cache s.locals s.remote_cache
          s.remote).2 f, x.folder = f := build_patch_hunk_folder _ _ _ _ f
      have hpres := foldFolders_not_mem
        (build_patch s.local_cache s.locals s.remote_cache s.remote).2
        (build_patch_hunk_folder _ _ _ _) f L' hfL'
        (applyFolderHunks t
          ((build_patch s.local_cache s.locals s.remote_cache s.remote).2 f))
      simp only [foldFolders] at hpres
      rw [hpres, bitsOf_applyFolderHunks_self f _ hrow t, hbits,
        build_patch_eq_table]
      have hb : bitsOf s f = (decide (f ∈ s.local_cache), decide (f ∈ s.locals),
          decide (f ∈ s.remote_cache), decide (f ∈ s.remote)) := rfl
      rw [hb]
      exact row_foldl_bitApply f _ _ _ _
    · have hfL' : f ∈ L' := by
        rcases List.mem_cons.mp hf with h | h
        · exact absurd h hfg
        · exact h
      simp only [foldFolders, List.foldl_cons]
      have hb' : bitsOf (applyFolderHunks t
          ((build_patch s.local_cache s.locals s.remote_cache s.remote).2 g)) f
            = bitsOf s f := by
        rw [bitsOf_applyFolderHunks_other f _
          (fun x hx => by
            rw [build_patch_hunk_folder _ _ _ _ g x hx]
            exact Ne.symm hfg) t]
        exact hbits
      have := ih hnd' hfL' _ hb'
      simpa [foldFolders] using this

/-- After one run, every folder's presence vector is all-present or
all-absent. -/
lemma runFolderSync_bits (s : FolderState) (f : String) :
    bitsOf (runFolderSync s) f = (true, true, true, true) ∨
      bitsOf (runFolderSync s) f = (false, false, false, false) := by
  by_cases hf : f ∈ (build_patch s.local_cache s.locals s.remote_cache
      s.remote).1
  · exact foldFolders_mem s f _ (Finset.sort_nodup _ _)
      ((Finset.mem_sort (α := String) (· ≤ ·)).mpr hf) s rfl
  · right
    have hp := foldFolders_not_mem
      (build_patch s.local_cache s.locals s.remote_cache s.remote).2
      (build_patch_hunk_folder _ _ _ _) f _
      (fun h => hf ((Finset.mem_sort (α := String) (· ≤ ·)).mp h)) s
    rw [show runFolderSync s = foldFolders
        (build_patch s.local_cache s.locals s.remote_cache s.remote).2 s
        ((build_patch s.local_cache s.locals s.remote_cache
          s.remote).1.sort (· ≤ ·)) from rfl, hp]
    have h1 : f ∉ s.local_cache := fun h =>
      hf (by simp [build_patch, Finset.mem_union, h])
    have h2 : f ∉ s.locals := fun h =>
      hf (by simp [build_patch, Finset.mem_union, h])
    have h3 : f ∉ s.remote_cache := fun h =>
      hf (by simp [build_patch, Finset.mem_union, h])
    have h4 : f ∉ s.remote := fun h =>
      hf (by simp [build_patch, Finset.mem_union, h])
    simp [bitsOf, h1, h2, h3, h4]

/-- Re-running the folder patch builder after a full run yields no hunks for
any folder. -/
lemma folder_sync_second_run_empty (s : FolderState) (f : String) :
    (build_patch (runFolderSync s).local_cache (runFolderSync s).locals
      (runFolderSync s).remote_cache (runFolderSync s).remote).2 f = [] := by
  rcases runFolderSync_bits s f with h | h <;>
  · simp only [bitsOf, Prod.mk.injEq] at h
    obtain ⟨e1, e2, e3, e4⟩ := h
    rw [build_patch_eq_table, e1, e2, e3, e4]
    rfl

/-- Model of `Flag` from the envelope data model (spec section 3): one of the five
standard flags or a custom one. -/
inductive Flag where
  | Seen
  | Answered
  | Flagged
  | Deleted
  | Draft
  | Custom (s : String)
  deriving DecidableEq, Repr

/-- Model of `Flags`: a set of flags (insertion order irrelevant, duplicates
collapse). -/
abbrev Flags := Finset Flag

/-- The four per-message-id corners of the email diff: flags of the message
in left cache, left backend, right cache and right backend (`none` when the
message is absent from that corner).  The email diff engine and executor are
per message-id, so folder and id are left implicit. -/
structure EnvCorners where
  lc : Option Flags
  l : Option Flags
  rc : Option Flags
  r : Option Flags
  deriving DecidableEq

/-- Model of `EmailSyncHunk` from `src/email/src/email/sync/hunk.rs` (executed by
`sync` in `src/email/src/email/sync/mod.rs`), restricted to one message-id:
folder and id fields are implicit, the flags recorded in the hunk's envelope
are kept. -/
inductive EmailSyncHunk where
  | GetThenCache (dest : SyncDestination)
  | CopyThenCache (flags : Flags) (source target : SyncDestination) (refresh : Bool)
  | UpdateFlags (flags : Flags) (dest : SyncDestination)
  | UpdateCachedFlags (flags : Flags) (dest : SyncDestination)
  | Delete (dest : SyncDestination)
  | Uncache (dest : SyncDestination)
  deriving DecidableEq

/-- Modelled from the spec: the flag merge policy of section 4.2, "union of
flags across the four, with Deleted removed unless present on a non-cache
side", generalized to absent corners contributing the empty set. -/
def syncFlags (lc l rc r : Option Flags) : Flags :=
  let u := lc.getD ∅ ∪ l.getD ∅ ∪ rc.getD ∅ ∪ r.getD ∅
  if Flag.Deleted ∈ l.getD ∅ ∪ r.getD ∅ then u else u.erase Flag.Deleted

/-- Modelled from the spec: the per-message-id email patch builder
(`patch::build`, called from `src/email/src/email/sync/mod.rs` line 200; its
defining module `src/email/src/email/sync/patch.rs` is not under `src/`).
The 16 rows follow the spec's words: the section 4.2 rows
`(0,0,0,1)`, `(0,1,1,0)`, `(1,0,1,0)` and `(1,1,1,1)` as written, row
`(1,0,0,1)` as spec section 8 scenario 4 ("Moved-not-copied": deletion on
Left propagated as `Uncache(L), Delete(R), Uncache(R)`), and the rows shown
nowhere by the design-note analogy to the section 4.1 folder table
("implemented identically ... with Cache/Create/Uncache/Delete replaced by
envelope operations", cache treated as ancestor, the newer real side
propagated), with the section 4.2 flag-merge hunks (`UpdateFlags` /
`UpdateCachedFlags` emitted "only where the merged flag set differs")
wherever several corners survive the row. -/
def emailBuildPatch (c : EnvCorners) : List EmailSyncHunk :=
  match c.lc, c.l, c.rc, c.r with
  -- 0000
  | none, none, none, none => []
  -- 0001: new on Right only
  | none, none, none, some rf =>
    [EmailSyncHunk.GetThenCache SyncDestination.Right,
     EmailSyncHunk.CopyThenCache rf SyncDestination.Right SyncDestination.Left false]
  -- 0010: stale right cache
  | none, none, some _, none => [EmailSyncHunk.Uncache SyncDestination.Right]
  -- 0011: new for Left, right side authoritative
  | none, none, some rcf, some rf =>
    [EmailSyncHunk.CopyThenCache rf SyncDestination.Right SyncDestination.Left false] ++
      (if rcf = rf then [] else
        [EmailSyncHunk.UpdateCachedFlags rf SyncDestination.Right])
  -- 0100: new on Left only
  | none, some lf, none, none =>
    [EmailSyncHunk.GetThenCache SyncDestination.Left,
     EmailSyncHunk.CopyThenCache lf SyncDestination.Left SyncDestination.Right false]
  -- 0101: on both real sides, no cache: merge flags, then cache both
  | none, some lf, none, some rf =>
    let m := syncFlags none (some lf) none (some rf)
    (if m = lf then [] else [EmailSyncHunk.UpdateFlags m SyncDestination.Left]) ++
    (if m = rf then [] else [EmailSyncHunk.UpdateFlags m SyncDestination.Right]) ++
    [EmailSyncHunk.GetThenCache SyncDestination.Left,
     EmailSyncHunk.GetThenCache SyncDestination.Right]
  -- 0110: spec's "moved" row: Uncache(L), cache-copy Left to Right
  | none, some lf, some _, none =>
    [EmailSyncHunk.Uncache SyncDestination.Left,
     EmailSyncHunk.CopyThenCache lf SyncDestination.Left SyncDestination.Right true]
  -- 0111: merge the three surviving corners, then fill the left cache
  | none, some lf, some rcf, some rf =>
    let m := syncFlags none (some lf) (some rcf) (some rf)
    (if m = lf then [] else [EmailSyncHunk.UpdateFlags m SyncDestination.Left]) ++
    (if m = rf then [] else [EmailSyncHunk.UpdateFlags m SyncDestination.Right]) ++
    (if m = rcf then [] else [EmailSyncHunk.UpdateCachedFlags m SyncDestination.Right]) ++
    [EmailSyncHunk.GetThenCache SyncDestination.Left]
  -- 1000: stale left cache
  | some _, none, none, none => [EmailSyncHunk.Uncache SyncDestination.Left]
  -- 1001: spec scenario 4, deletion on Left propagated
  | some _, none, none, some _ =>
    [EmailSyncHunk.Uncache SyncDestination.Left,
     EmailSyncHunk.Delete SyncDestination.Right,
     EmailSyncHunk.Uncache SyncDestination.Right]
  -- 1010: in both caches, in neither real side
  | some _, none, some _, none =>
    [EmailSyncHunk.Uncache SyncDestination.Left, EmailSyncHunk.Uncache SyncDestination.Right]
  -- 1011: deleted on Left, propagate deletion
  | some _, none, some _, some _ =>
    [EmailSyncHunk.Uncache SyncDestination.Left, EmailSyncHunk.Uncache SyncDestination.Right,
     EmailSyncHunk.Delete SyncDestination.Right]
  -- 1100: left side authoritative, copy to Right
  | some lcf, some lf, none, none =>
    [EmailSyncHunk.CopyThenCache lf SyncDestination.Left SyncDestination.Right false] ++
      (if lcf = lf then [] else
        [EmailSyncHunk.UpdateCachedFlags lf SyncDestination.Left])
  -- 1101: merge the three surviving corners, then fill the right cache
  | some lcf, some lf, none, some rf =>
    let m := syncFlags (some lcf) (some lf) none (some rf)
    (if m = lf then [] else [EmailSyncHunk.UpdateFlags m SyncDestination.Left]) ++
    (if m = rf then [] else [EmailSyncHunk.UpdateFlags m SyncDestination.Right]) ++
    (if m = lcf then [] else [EmailSyncHunk.UpdateCachedFlags m SyncDestination.Left]) ++
    [EmailSyncHunk.GetThenCache SyncDestination.Right]
  -- 1110: deleted on Right, propagate deletion
  | some _, some _, some _, none =>
    [EmailSyncHunk.Uncache SyncDestination.Left, EmailSyncHunk.Delete SyncDestination.Left,
     EmailSyncHunk.Uncache SyncDestination.Right]
  -- 1111: all four present, reconcile flags
  | some lcf, some lf, some rcf, some rf =>
    let m := syncFlags (some lcf) (some lf) (some rcf) (some rf)
    (if m = lf then [] else [EmailSyncHunk.UpdateFlags m SyncDestination.Left]) ++
    (if m = rf then [] else [EmailSyncHunk.UpdateFlags m SyncDestination.Right]) ++
    (if m = lcf then [] else [EmailSyncHunk.UpdateCachedFlags m SyncDestination.Left]) ++
    (if m = rcf then [] else [EmailSyncHunk.UpdateCachedFlags m SyncDestination.Right])

/-- Executing one email hunk on the four corners, from the hunk match of
`sync` (`src/email/src/email/sync/mod.rs` lines 246-384):
`GetThenCache` reads the side's backend envelope and caches it with its
flags; `CopyThenCache` optionally refreshes the source cache with the hunk
envelope's flags, peeks the message from the source backend, adds it to the
target backend with the envelope's flags and caches the resulting target
envelope; `Uncache`/`Delete` add the `Deleted` flag on the side's
cache/backend; `UpdateCachedFlags`/`UpdateFlags` set the hunk envelope's
flags on the side's cache/backend.  A hunk whose backend read fails (absent
message) leaves the remaining corners unchanged, as its task errors out. -/
def applyEmailHunk (c : EnvCorners) : EmailSyncHunk → EnvCorners
  | .GetThenCache .Left =>
    match c.l with
    | some F => { c with lc := some F }
    | none => c
  | .GetThenCache .Right =>
    match c.r with
    | some F => { c with rc := some F }
    | none => c
  | .CopyThenCache F .Left tgt refresh =>
    let c1 := if refresh then { c with lc := some F } else c
    match c1.l with
    | none => c1
    | some _ =>
      match tgt with
      | .Left => { c1 with l := some F, lc := some F }
      | .Right => { c1 with r := some F, rc := some F }
  | .CopyThenCache F .Right tgt refresh =>
    let c1 := if refresh then { c with rc := some F } else c
    match c1.r with
    | none => c1
    | some _ =>
      match tgt with
      | .Left => { c1 with l := some F, lc := some F }
      | .Right => { c1 with r := some F, rc := some F }
  | .Uncache .Left => { c with lc := c.lc.map (insert Flag.Deleted) }
  | .Uncache .Right => { c with rc := c.rc.map (insert Flag.Deleted) }
  | .Delete .Left => { c with l := c.l.map (insert Flag.Deleted) }
  | .Delete .Right => { c with r := c.r.map (insert Flag.Deleted) }
  | .UpdateCachedFlags F .Left => { c with lc := c.lc.map (fun _ => F) }
  | .UpdateCachedFlags F .Right => { c with rc := c.rc.map (fun _ => F) }
  | .UpdateFlags F .Left => { c with l := c.l.map (fun _ => F) }
  | .UpdateFlags F .Right => { c with r := c.r.map (fun _ => F) }

/-- Executing an email patch in order. -/
def applyEmailHunks (c : EnvCorners) (hs : List EmailSyncHunk) : EnvCorners :=
  hs.foldl applyEmailHunk c

/-- Modelled from the spec: expunging removes "trashed entries", i.e. the
entries carrying the `Deleted` flag (backend contract of section 4.6;
`expunge_folder` is invoked by the account-level sync driver, which is not
under `src/`), applied to one corner. -/
def expungeCorner : Option Flags → Option Flags
  | none => none
  | some F => if Flag.Deleted ∈ F then none else some F

/-- Expunging all four corners at the end of a run. -/
def expungeAll (c : EnvCorners) : EnvCorners :=
  ⟨expungeCorner c.lc, expungeCorner c.l, expungeCorner c.rc, expungeCorner c.r⟩

/-- One full email sync run on one message-id: build the patch, execute it,
expunge. -/
def runEmailSync (c : EnvCorners) : EnvCorners :=
  expungeAll (applyEmailHunks c (emailBuildPatch c))

lemma syncFlags_all_eq (F : Flags) :
    syncFlags (some F) (some F) (some F) (some F) = F := by
  unfold syncFlags
  by_cases h : Flag.Deleted ∈ F <;>
    simp [h, Finset.union_self, Finset.erase_eq_of_not_mem]

/-- No hunks when all four corners agree. -/
lemma emailBuildPatch_all_eq (F : Flags) :
    emailBuildPatch ⟨some F, some F, some F, some F⟩ = [] := by
  simp [emailBuildPatch, syncFlags_all_eq]

lemma emailBuildPatch_all_none : emailBuildPatch ⟨none, none, none, none⟩ = [] :=
  rfl

/-- After expunging four equal corners, the rebuilt patch is empty. -/
lemma email_final_all_eq (G : Flags) :
    emailBuildPatch (expungeAll ⟨some G, some G, some G, some G⟩) = [] := by
  by_cases h : Flag.Deleted ∈ G
  · simp [expungeAll, expungeCorner, h, emailBuildPatch_all_none]
  · simp [expungeAll, expungeCorner, h, emailBuildPatch_all_eq]

lemma expungeCorner_insert_deleted (X : Flags) :
    expungeCorner (some (insert Flag.Deleted X)) = none := by
  simp [expungeCorner]

/-- Re-running the email patch builder on the state left by a full run
yields no hunks. -/
lemma apply_row_0101 (lf rf : Flags) :
    applyEmailHunks ⟨none, some lf, none, some rf⟩
        (emailBuildPatch ⟨none, some lf, none, some rf⟩) =
      ⟨some (syncFlags none (some lf) none (some rf)),
       some (syncFlags none (some lf) none (some rf)),
       some (syncFlags none (some lf) none (some rf)),
       some (syncFlags none (some lf) none (some rf))⟩ := by
  simp only [emailBuildPatch]
  split_ifs with h1 h2 h3 <;>
    simp_all [applyEmailHunks, applyEmailHunk]

lemma apply_row_0111 (lf rcf rf : Flags) :
    applyEmailHunks ⟨none, some lf, some rcf, some rf⟩
        (emailBuildPatch ⟨none, some lf, some rcf, some rf⟩) =
      ⟨some (syncFlags none (some lf) (some rcf) (some rf)),
       some (syncFlags none (some lf) (some rcf) (some rf)),
       some (syncFlags none (some lf) (some rcf) (some rf)),
       some (syncFlags none (some lf) (some rcf) (some rf))⟩ := by
  simp only [emailBuildPatch]
  split_ifs <;> simp_all [applyEmailHunks, applyEmailHunk]

lemma apply_row_1101 (lcf lf rf : Flags) :
    applyEmailHunks ⟨some lcf, some lf, none, some rf⟩
        (emailBuildPatch ⟨some lcf, some lf, none, some rf⟩) =
      ⟨some (syncFlags (some lcf) (some lf) none (some rf)),
       some (syncFlags (some lcf) (some lf) none (some rf)),
       some (syncFlags (some lcf) (some lf) none (some rf)),
       some (syncFlags (some lcf) (some lf) none (some rf))⟩ := by
  simp only [emailBuildPatch]
  split_ifs <;> simp_all [applyEmailHunks, applyEmailHunk]

lemma apply_row_1111 (lcf lf rcf rf : Flags) :
    applyEmailHunks ⟨some lcf, some lf, some rcf, some rf⟩
        (emailBuildPatch ⟨some lcf, some lf, some rcf, some rf⟩) =
      ⟨some (syncFlags (some lcf) (some lf) (some rcf) (some rf)),
       some (syncFlags (some lcf) (some lf) (some rcf) (some rf)),
       some (syncFlags (some lcf) (some lf) (some rcf) (some rf)),
       some (syncFlags (some lcf) (some lf) (some rcf) (some rf))⟩ := by
  simp only [emailBuildPatch]
  split_ifs <;> simp_all [applyEmailHunks, applyEmailHunk]

lemma email_second_run_empty (c : EnvCorners) :
    emailBuildPatch (runEmailSync c) = [] := by
  obtain ⟨lc, l, rc, r⟩ := c
  cases lc with
  | none =>
    cases l with
    | none =>
      cases rc with
      | none =>
        cases r with
        | none => rfl
        | some rf =>
          -- 0001
          simp only [runEmailSync, emailBuildPatch, applyEmailHunks,
            List.foldl_cons, List.foldl_nil, applyEmailHunk]
          exact email_final_all_eq rf
      | some rcf =>
        cases r with
        | none =>
          -- 0010
          simp [runEmailSync, emailBuildPatch, applyEmailHunks,
            applyEmailHunk, expungeAll, expungeCorner]
        | some rf =>
          -- 0011
          by_cases h : rcf = rf
          · subst h
            simp only [runEmailSync, emailBuildPatch, if_pos rfl,
              List.append_nil, applyEmailHunks, List.foldl_cons,
              List.foldl_nil, applyEmailHunk]
            exact email_final_all_eq rcf
          · simp only [runEmailSync, emailBuildPatch, if_neg h,
              List.cons_append, List.nil_append, applyEmailHunks,
              List.foldl_cons, List.foldl_nil, applyEmailHunk, Option.map_some]
            exact email_final_all_eq rf
    | some lf =>
      cases rc with
      | none =>
        cases r with
        | none =>
          -- 0100
          simp only [runEmailSync, emailBuildPatch, applyEmailHunks,
            List.foldl_cons, List.foldl_nil, applyEmailHunk]
          exact email_final_all_eq lf
        | some rf =>
          -- 0101
          rw [runEmailSync, apply_row_0101 lf rf]
          exact email_final_all_eq _
      | some rcf =>
        cases r with
        | none =>
          -- 0110
          simp only [runEmailSync, emailBuildPatch, applyEmailHunks,
            List.foldl_cons, List.foldl_nil, applyEmailHunk, Option.map_none,
            if_true]
          exact email_final_all_eq lf
        | some rf =>
          -- 0111
          rw [runEmailSync, apply_row_0111 lf rcf rf]
          exact email_final_all_eq _
  | some lcf =>
    cases l with
    | none =>
      cases rc with
      | none =>
        cases r with
        | none =>
          -- 1000
          simp [runEmailSync, emailBuildPatch, applyEmailHunks,
            applyEmailHunk, expungeAll, expungeCorner]
        | some rf =>
          -- 1001
          simp [runEmailSync, emailBuildPatch, applyEmailHunks,
            applyEmailHunk, expungeAll, expungeCorner]
      | some rcf =>
        cases r with
        | none =>
          -- 1010
          simp [runEmailSync, emailBuildPatch, applyEmailHunks,
            applyEmailHunk, expungeAll, expungeCorner]
        | some rf =>
          -- 1011
          simp [runEmailSync, emailBuildPatch, applyEmailHunks,
            applyEmailHunk, expungeAll, expungeCorner]
    | some lf =>
      cases rc with
      | none =>
        cases r with
        | none =>
          -- 1100
          by_cases h : lcf = lf
          · subst h
            simp only [runEmailSync, emailBuildPatch, if_pos rfl,
              List.append_nil, applyEmailHunks, List.foldl_cons,
              List.foldl_nil, applyEmailHunk]
            exact email_final_all_eq lcf
          · simp only [runEmailSync, emailBuildPatch, if_neg h,
              List.cons_append, List.nil_append, applyEmailHunks,
              List.foldl_cons, List.foldl_nil, applyEmailHunk, Option.map_some]
            exact email_final_all_eq lf
        | some rf =>
          -- 1101
          rw [runEmailSync, apply_row_1101 lcf lf rf]
          exact email_final_all_eq _
      | some rcf =>
        cases r with
        | none =>
          -- 1110
          simp [runEmailSync, emailBuildPatch, applyEmailHunks,
            applyEmailHunk, expungeAll, expungeCorner]
        | some rf =>
          -- 1111
          rw [runEmailSync, apply_row_1111 lcf lf rcf rf]
          exact email_final_all_eq _

/-- C2: running sync twice with no external change produces an empty
second-run hunk set, both for the folder diff (fully from the source
`build_patch` and hunk executor) and, per message-id, for the email diff
(patch builder and end-of-run expunge modelled from the spec, executor from
`src/email/src/email/sync/mod.rs`). -/
theorem sync_second_run_is_empty :
    (∀ (s : FolderState) (f : String),
      (build_patch (runFolderSync s).local_cache (runFolderSync s).locals
        (runFolderSync s).remote_cache (runFolderSync s).remote).2 f = []) ∧
    (∀ c : EnvCorners, emailBuildPatch (runEmailSync c) = []) :=
  ⟨folder_sync_second_run_empty, email_second_run_empty⟩

/-- Abstract error payload carried by reports (the Rust error enums are
collapsed to an opaque code: the claims only compare `Some`/`None`). -/
abbrev SyncError := Nat

/-- Model of `FolderSyncCacheHunk` from `src/email/src/folder/sync`: pending cache
writes collected by `process_hunk` and applied in one transaction at the end
of `apply_patches`. -/
inductive FolderSyncCacheHunk where
  | Insert (folder : String) (dest : SyncDestination)
  | Delete (folder : String) (dest : SyncDestination)
  deriving DecidableEq, Repr

/-- Modelled from the spec: the folder-sync progress events of section 6
(`ApplyFolderHunk(hunk)`, `ProcessedFolderHunk(hunk)`).  The defining module
of the event enum (`account::sync`) is not under `src/`; the emission sites
in `apply_patches` are. -/
inductive FolderSyncEvent where
  | ApplyFolderHunk (h : FolderSyncHunk)
  | ProcessedFolderHunk (h : FolderSyncHunk)
  deriving DecidableEq, Repr

/-- The email-sync progress event emitted per processed hunk
(`SyncEvent::ProcessedEmailHunk`, `src/email/src/email/sync/mod.rs`
line 392). -/
inductive EmailSyncEvent where
  | ProcessedEmailHunk (h : EmailSyncHunk)
  deriving DecidableEq

/-- Model of `FolderSyncPatchManager::process_hunk`
(`src/email/src/folder/sync/patch.rs` lines 197-246): `Cache`/`Uncache`
yield cache hunks without touching the backends; `Create`/`Delete` call the
side's `add_folder`/`delete_folder` (whose failure is modelled by the
`oracle`) and yield no cache hunk. -/
def process_hunk (oracle : FolderSyncHunk → Option SyncError) (s : FolderState) :
    FolderSyncHunk → Except SyncError (FolderState × List FolderSyncCacheHunk)
  | .Cache f .Left => .ok (s, [FolderSyncCacheHunk.Insert f SyncDestination.Left])
  | .Create f .Left =>
    match oracle (.Create f .Left) with
    | some e => .error e
    | none => .ok ({ s with locals := insert f s.locals }, [])
  | .Cache f .Right => .ok (s, [FolderSyncCacheHunk.Insert f SyncDestination.Right])
  | .Create f .Right =>
    match oracle (.Create f .Right) with
    | some e => .error e
    | none => .ok ({ s with remote := insert f s.remote }, [])
  | .Uncache f .Left => .ok (s, [FolderSyncCacheHunk.Delete f SyncDestination.Left])
  | .Delete f .Left =>
    match oracle (.Delete f .Left) with
    | some e => .error e
    | none => .ok ({ s with locals := s.locals.erase f }, [])
  | .Uncache f .Right => .ok (s, [FolderSyncCacheHunk.Delete f SyncDestination.Right])
  | .Delete f .Right =>
    match oracle (.Delete f .Right) with
    | some e => .error e
    | none => .ok ({ s with remote := s.remote.erase f }, [])

/-- Applying one collected cache hunk (the cache transaction of
`apply_patches`, lines 309-329). -/
def applyCacheHunk (s : FolderState) : FolderSyncCacheHunk → FolderState
  | .Insert f .Left => { s with local_cache := insert f s.local_cache }
  | .Insert f .Right => { s with remote_cache := insert f s.remote_cache }
  | .Delete f .Left => { s with local_cache := s.local_cache.erase f }
  | .Delete f .Right => { s with remote_cache := s.remote_cache.erase f }

/-- Accumulator of the folder hunk execution: running state, report entries,
pending cache hunks, emitted events. -/
structure ApplyAcc where
  state : FolderState
  patch : List (FolderSyncHunk × Option SyncError)
  cache : List FolderSyncCacheHunk
  events : List FolderSyncEvent
  deriving DecidableEq

/-- One step of the real (non-dry) folder hunk execution
(`apply_patches` lines 267-307): emit `ApplyFolderHunk`, run
`process_hunk`; on success record `(hunk, None)` and collect the cache
hunks, on failure record `(hunk, Some(err))` and continue. -/
def applyStep (oracle : FolderSyncHunk → Option SyncError) (acc : ApplyAcc)
    (h : FolderSyncHunk) : ApplyAcc :=
  let acc := { acc with events := acc.events ++ [FolderSyncEvent.ApplyFolderHunk h] }
  match process_hunk oracle acc.state h with
  | .ok (s', ch) =>
    { acc with state := s', patch := acc.patch ++ [(h, none)], cache := acc.cache ++ ch }
  | .error e => { acc with patch := acc.patch ++ [(h, some e)] }

/-- Model of `FolderSyncPatchManager::apply_patches`
(`src/email/src/folder/sync/patch.rs` lines 252-342).  Dry run: skip
everything and report every hunk of every folder's patch as successful.
Real run: execute the flattened hunks (the concurrent `buffer_unordered`
execution is modelled sequentially), then apply the collected cache hunks in
one transaction.  The report's folder-name list is omitted. -/
def apply_patches (dry_run : Bool) (oracle : FolderSyncHunk → Option SyncError)
    (patches : List (String × List FolderSyncHunk)) (s : FolderState) : ApplyAcc :=
  let hunks := patches.flatMap Prod.snd
  if dry_run then ⟨s, hunks.map (fun h => (h, none)), [], []⟩
  else
    let acc := hunks.foldl (applyStep oracle) ⟨s, [], [], []⟩
    { acc with state := acc.cache.foldl applyCacheHunk acc.state }

/-- The report outcome of one folder hunk: cache hunks always succeed,
backend hunks fail exactly when the backend call fails. -/
def folderOutcome (oracle : FolderSyncHunk → Option SyncError) :
    FolderSyncHunk → Option SyncError
  | .Cache _ _ => none
  | .Uncache _ _ => none
  | .Create f d => oracle (.Create f d)
  | .Delete f d => oracle (.Delete f d)

lemma applyStep_patch (o : FolderSyncHunk → Option SyncError) (acc : ApplyAcc)
    (h : FolderSyncHunk) :
    (applyStep o acc h).patch = acc.patch ++ [(h, folderOutcome o h)] ∧
    (applyStep o acc h).events = acc.events ++ [FolderSyncEvent.ApplyFolderHunk h] := by
  cases h with
  | Cache f d => cases d <;> simp [applyStep, process_hunk, folderOutcome]
  | Uncache f d => cases d <;> simp [applyStep, process_hunk, folderOutcome]
  | Create f d =>
    cases d with
    | Left =>
      cases ho : o (FolderSyncHunk.Create f SyncDestination.Left) <;>
        simp [applyStep, process_hunk, folderOutcome, ho]
    | Right =>
      cases ho : o (FolderSyncHunk.Create f SyncDestination.Right) <;>
        simp [applyStep, process_hunk, folderOutcome, ho]
  | Delete f d =>
    cases d with
    | Left =>
      cases ho : o (FolderSyncHunk.Delete f SyncDestination.Left) <;>
        simp [applyStep, process_hunk, folderOutcome, ho]
    | Right =>
      cases ho : o (FolderSyncHunk.Delete f SyncDestination.Right) <;>
        simp [applyStep, process_hunk, folderOutcome, ho]

lemma applyFold_spec (o : FolderSyncHunk → Option SyncError)
    (hs : List FolderSyncHunk) (acc : ApplyAcc) :
    (hs.foldl (applyStep o) acc).patch =
        acc.patch ++ hs.map (fun h => (h, folderOutcome o h)) ∧
      (hs.foldl (applyStep o) acc).events =
        acc.events ++ hs.map FolderSyncEvent.ApplyFolderHunk := by
  induction hs generalizing acc with
  | nil => simp
  | cons h hs ih =>
    obtain ⟨ihp, ihe⟩ := ih (applyStep o acc h)
    obtain ⟨sp, se⟩ := applyStep_patch o acc h
    constructor
    · rw [List.foldl_cons, ihp, sp]
      simp
    · rw [List.foldl_cons, ihe, se]
      simp

/-- Executing one email hunk in `sync` (`src/email/src/email/sync/mod.rs`
lines 234-404): in dry-run the task returns successfully before doing
anything; otherwise the hunk is executed against backends and caches, a
failure (modelled by the `oracle`) being recorded instead of propagated. -/
def execEmailHunk (dry_run : Bool) (oracle : EmailSyncHunk → Option SyncError)
    (c : EnvCorners) (h : EmailSyncHunk) : EnvCorners × Option SyncError :=
  if dry_run then (c, none)
  else
    match oracle h with
    | some e => (c, some e)
    | none => (applyEmailHunk c h, none)

/-- Accumulator of the email hunk execution. -/
structure EmailExecAcc where
  state : EnvCorners
  patch : List (EmailSyncHunk × Option SyncError)
  events : List EmailSyncEvent
  deriving DecidableEq

/-- One step of the email hunk execution: run the task (or skip it in
dry-run), emit `ProcessedEmailHunk` regardless, record the outcome pair. -/
def emailExecStep (dry_run : Bool) (oracle : EmailSyncHunk → Option SyncError)
    (acc : EmailExecAcc) (h : EmailSyncHunk) : EmailExecAcc :=
  let r := execEmailHunk dry_run oracle acc.state h
  ⟨r.1, acc.patch ++ [(h, r.2)],
    acc.events ++ [EmailSyncEvent.ProcessedEmailHunk h]⟩

/-- The email hunk execution loop of `sync` (concurrent `FuturesUnordered`
execution modelled sequentially). -/
def execEmailHunks (dry_run : Bool) (oracle : EmailSyncHunk → Option SyncError)
    (c : EnvCorners) (hunks : List EmailSyncHunk) : EmailExecAcc :=
  hunks.foldl (emailExecStep dry_run oracle) ⟨c, [], []⟩

lemma emailFold_spec (dry : Bool) (o : EmailSyncHunk → Option SyncError)
    (hs : List EmailSyncHunk) (acc : EmailExecAcc) :
    (hs.foldl (emailExecStep dry o) acc).patch =
        acc.patch ++ hs.map (fun h => (h, if dry then none else o h)) ∧
      (hs.foldl (emailExecStep dry o) acc).events =
        acc.events ++ hs.map EmailSyncEvent.ProcessedEmailHunk ∧
      (dry = true → (hs.foldl (emailExecStep dry o) acc).state = acc.state) := by
  induction hs generalizing acc with
  | nil => simp
  | cons h hs ih =>
    obtain ⟨ihp, ihe, ihs⟩ := ih (emailExecStep dry o acc h)
    refine ⟨?_, ?_, ?_⟩
    · rw [List.foldl_cons, ihp]
      cases dry with
      | true => simp [emailExecStep, execEmailHunk]
      | false =>
        cases ho : o h <;> simp [emailExecStep, execEmailHunk, ho]
    · rw [List.foldl_cons, ihe]
      simp [emailExecStep]
    · intro hd
      subst hd
      rw [List.foldl_cons, ihs rfl]
      simp [emailExecStep, execEmailHunk]

/-- The dry-run guard around envelope listing in `sync`
(`src/email/src/email/sync/mod.rs` lines 52-60 and the three analogous
sites): a listing failure is swallowed into the default empty listing when
`dry_run` is set, and surfaced otherwise. -/
def listOrDefault {α : Type} (dry_run : Bool) (res : Except SyncError α)
    (dflt : α) : Except SyncError α :=
  match res with
  | .ok v => .ok v
  | .error e => if dry_run then .ok dflt else .error e

lemma execEmailHunks_dry (o : EmailSyncHunk → Option SyncError) (c : EnvCorners)
    (hs : List EmailSyncHunk) :
    execEmailHunks true o c hs =
      ⟨c, hs.map (fun h => (h, none)), hs.map EmailSyncEvent.ProcessedEmailHunk⟩ := by
  obtain ⟨hp, he, hst⟩ := emailFold_spec true o hs ⟨c, [], []⟩
  have h1 : (execEmailHunks true o c hs).state = c := hst rfl
  have h2 : (execEmailHunks true o c hs).patch = hs.map (fun h => (h, none)) := by
    simpa using hp
  have h3 : (execEmailHunks true o c hs).events =
      hs.map EmailSyncEvent.ProcessedEmailHunk := by
    simpa using he
  calc execEmailHunks true o c hs
      = ⟨(execEmailHunks true o c hs).state, (execEmailHunks true o c hs).patch,
          (execEmailHunks true o c hs).events⟩ := rfl
    _ = _ := by rw [h1, h2, h3]

/-- C3: dry-run neutrality.  Folder side: `apply_patches` with `dry_run`
leaves the state untouched and reports every hunk of the input patches
paired with no error; the hunk set processed is the same as in a real run
(both are the flattened input patches, and the patch builder takes no
dry-run flag at all).  Email side: the dry executor leaves the corners
untouched and reports every hunk with no error; and the listing guard
behaves identically in dry and real mode whenever the listing succeeds, so
the generated hunk set is the same. -/
theorem dry_run_same_hunks_no_effects :
    (∀ (oracle : FolderSyncHunk → Option SyncError)
        (patches : List (String × List FolderSyncHunk)) (s : FolderState),
      apply_patches true oracle patches s =
        ⟨s, (patches.flatMap Prod.snd).map (fun h => (h, none)), [], []⟩) ∧
    (∀ (oracle : FolderSyncHunk → Option SyncError)
        (patches : List (String × List FolderSyncHunk)) (s : FolderState),
      (apply_patches false oracle patches s).patch.map Prod.fst =
          patches.flatMap Prod.snd ∧
        (apply_patches true oracle patches s).patch.map Prod.fst =
          patches.flatMap Prod.snd) ∧
    (∀ (oracle : EmailSyncHunk → Option SyncError) (c : EnvCorners)
        (hunks : List EmailSyncHunk),
      execEmailHunks true oracle c hunks =
        ⟨c, hunks.map (fun h => (h, none)),
          hunks.map EmailSyncEvent.ProcessedEmailHunk⟩) ∧
    (∀ (oracle : EmailSyncHunk → Option SyncError) (c : EnvCorners)
        (hunks : List EmailSyncHunk),
      (execEmailHunks false oracle c hunks).patch.map Prod.fst = hunks ∧
        (execEmailHunks true oracle c hunks).patch.map Prod.fst = hunks) ∧
    (∀ {α : Type} (res : Except SyncError α) (dflt v : α), res = .ok v →
      listOrDefault true res dflt = listOrDefault false res dflt) := by
  refine ⟨fun o p s => rfl, fun o p s => ⟨?_, ?_⟩, fun o c hs => execEmailHunks_dry o c hs,
    fun o c hs => ⟨?_, ?_⟩, fun res dflt v hv => by rw [hv]; rfl⟩
  · have hp := (applyFold_spec o (p.flatMap Prod.snd) ⟨s, [], [], []⟩).1
    show ((p.flatMap Prod.snd).foldl (applyStep o) ⟨s, [], [], []⟩).patch.map
      Prod.fst = p.flatMap Prod.snd
    rw [hp]
    simp [Function.comp_def]
  · show ((p.flatMap Prod.snd).map (fun h => (h, none))).map Prod.fst =
      p.flatMap Prod.snd
    simp [Function.comp_def]
  · have hp := (emailFold_spec false o hs ⟨c, [], []⟩).1
    show (hs.foldl (emailExecStep false o) ⟨c, [], []⟩).patch.map Prod.fst = hs
    rw [hp]
    simp [Function.comp_def]
  · rw [execEmailHunks_dry o c hs]
    simp [Function.comp_def]

/-- Witness for `dry_run_same_hunks_no_effects`: the listing-guard clause at
a concrete successful listing. -/
theorem dry_run_same_hunks_no_effects_witness :
    ((Except.ok [42] : Except SyncError (List Nat)) = .ok [42]) ∧
      listOrDefault true (Except.ok [42] : Except SyncError (List Nat)) [] =
        listOrDefault false (Except.ok [42] : Except SyncError (List Nat)) [] :=
  ⟨rfl, dry_run_same_hunks_no_effects.2.2.2.2
    (Except.ok [42] : Except SyncError (List Nat)) [] [42] rfl⟩

/-- C4 (amended): in a real run, the report pairs every hunk, in order, with
its own outcome — `none` on success, `some err` on failure — and execution
continues past failures; every email hunk gets a `ProcessedEmailHunk` event
regardless of its outcome, while every folder hunk gets an
`ApplyFolderHunk` event (emitted before processing, hence also regardless
of its outcome) and no processed-folder event. -/
theorem per_hunk_report_and_events :
    (∀ (oracle : FolderSyncHunk → Option SyncError)
        (patches : List (String × List FolderSyncHunk)) (s : FolderState),
      (apply_patches false oracle patches s).patch =
          (patches.flatMap Prod.snd).map (fun h => (h, folderOutcome oracle h)) ∧
        (apply_patches false oracle patches s).events =
          (patches.flatMap Prod.snd).map FolderSyncEvent.ApplyFolderHunk) ∧
    (∀ (oracle : EmailSyncHunk → Option SyncError) (c : EnvCorners)
        (hunks : List EmailSyncHunk),
      (execEmailHunks false oracle c hunks).patch =
          hunks.map (fun h => (h, oracle h)) ∧
        (execEmailHunks false oracle c hunks).events =
          hunks.map EmailSyncEvent.ProcessedEmailHunk) := by
  constructor
  · intro o p s
    obtain ⟨hp, he⟩ := applyFold_spec o (p.flatMap Prod.snd) ⟨s, [], [], []⟩
    constructor
    · show ((p.flatMap Prod.snd).foldl (applyStep o) ⟨s, [], [], []⟩).patch = _
      rw [hp]; simp
    · show ((p.flatMap Prod.snd).foldl (applyStep o) ⟨s, [], [], []⟩).events = _
      rw [he]; simp
  · intro o c hs
    obtain ⟨hp, he, _⟩ := emailFold_spec false o hs ⟨c, [], []⟩
    exact ⟨by rw [show (execEmailHunks false o c hs).patch =
        (hs.foldl (emailExecStep false o) ⟨c, [], []⟩).patch from rfl, hp]; simp,
      by rw [show (execEmailHunks false o c hs).events =
        (hs.foldl (emailExecStep false o) ⟨c, [], []⟩).events from rfl, he]; simp⟩

/-- C4 counterexample: executing the folder patch of the spec's scenario 1
emits only the `ApplyFolderHunk` event for its hunk — no processed-folder
event is ever emitted by `apply_patches`, contradicting the claim that a
processed-hunk event is emitted for every (folder) hunk. -/
theorem processed_folder_event_never_emitted :
    (apply_patches false (fun _ => none)
        [("Work", [FolderSyncHunk.Create "Work" SyncDestination.Left])]
        ⟨∅, ∅, ∅, ∅⟩).events =
      [FolderSyncEvent.ApplyFolderHunk
        (FolderSyncHunk.Create "Work" SyncDestination.Left)] ∧
    FolderSyncEvent.ProcessedFolderHunk
        (FolderSyncHunk.Create "Work" SyncDestination.Left) ∉
      (apply_patches false (fun _ => none)
        [("Work", [FolderSyncHunk.Create "Work" SyncDestination.Left])]
        ⟨∅, ∅, ∅, ∅⟩).events := by
  constructor
  · rfl
  · intro hmem
    rw [show (apply_patches false (fun _ => none)
        [("Work", [FolderSyncHunk.Create "Work" SyncDestination.Left])]
        ⟨∅, ∅, ∅, ∅⟩).events =
      [FolderSyncEvent.ApplyFolderHunk
        (FolderSyncHunk.Create "Work" SyncDestination.Left)] from rfl] at hmem
    simp at hmem

/-- Envelope, reduced to the fields the listing code inspects: internal id
and date (the sort key). -/
structure Envelope where
  id : String
  date : Nat
  deriving DecidableEq, Repr

/-- Stable insertion of an envelope into a date-descending list (model of
the stable `sort_by(|a, b| b.date.partial_cmp(&a.date))` of
`MaildirBackend::list_envelopes`). -/
def insertDesc (e : Envelope) : List Envelope → List Envelope
  | [] => [e]
  | x :: xs => if x.date < e.date then e :: x :: xs else x :: insertDesc e xs

/-- Date-descending stable sort. -/
def sortByDateDesc (es : List Envelope) : List Envelope :=
  es.foldr insertDesc []

lemma insertDesc_length (e : Envelope) (l : List Envelope) :
    (insertDesc e l).length = l.length + 1 := by
  induction l with
  | nil => rfl
  | cons x xs ih =>
    by_cases h : x.date < e.date <;> simp [insertDesc, h, ih]

lemma sortByDateDesc_length (es : List Envelope) :
    (sortByDateDesc es).length = es.length := by
  induction es with
  | nil => rfl
  | cons x xs ih => simp [sortByDateDesc, insertDesc_length] at *; omega

/-- The pagination-relevant error of the maildir backend
(`Error::GetEnvelopesOutOfBoundsError`,
`src/email/src/backend/maildir/mod.rs` line 51). -/
inductive MaildirError where
  | GetEnvelopesOutOfBoundsError (page : Nat)
  deriving DecidableEq, Repr

/-- Model of `MaildirBackend::list_envelopes`
(`src/email/src/backend/maildir/mod.rs` lines 311-342), taking the folder's
envelope list (the parsed `mdir.list_cur()`) as input: compute
`page_begin = page * page_size`, fail out-of-bounds when it exceeds the
envelope count, take the whole list as the page when `page_size == 0`, sort
by date descending, slice `[page_begin..page_end]`. -/
def maildir_list_envelopes (envelopes : List Envelope) (page_size page : Nat) :
    Except MaildirError (List Envelope) :=
  let page_begin := page * page_size
  if page_begin > envelopes.length then
    .error (.GetEnvelopesOutOfBoundsError (page_begin + 1))
  else
    let page_end := min envelopes.length
      (if page_size = 0 then envelopes.length else page_begin + page_size)
    let sorted := sortByDateDesc envelopes
    .ok ((sorted.drop page_begin).take (page_end - page_begin))

/-- The errors of the notmuch lister
(`src/email/src/email/envelope/list/notmuch.rs` lines 15-21). -/
inductive NotmuchError where
  | GetEnvelopesOutOfBoundsError (folder : String) (page : Nat)
  | SearchMessagesInvalidQuery (folder : String) (query : String)
  deriving DecidableEq, Repr

/-- Model of `ListNotmuchEnvelopes::list_envelopes`
(`src/email/src/email/envelope/list/notmuch.rs` lines 44-99), taking the
query result as input; `sorter` stands for `opts.sort_envelopes` (defined
outside `src/`), an arbitrary reordering applied after the bounds check. -/
def notmuch_list_envelopes (folder : String) (envelopes : List Envelope)
    (sorter : List Envelope → List Envelope) (page_size page : Nat) :
    Except NotmuchError (List Envelope) :=
  let page_begin := page * page_size
  if page_begin > envelopes.length then
    .error (.GetEnvelopesOutOfBoundsError folder (page_begin + 1))
  else
    let page_end := min envelopes.length
      (if page_size = 0 then envelopes.length else page_begin + page_size)
    let sorted := sorter envelopes
    .ok ((sorted.drop page_begin).take (page_end - page_begin))

/-- C5 counterexample: a folder holding two envelopes, requested with
`page = 0` and `page_size = 1`, yields only the first (most recent)
envelope — `page = 0` does not return all envelopes (that is the role of
`page_size = 0`). -/
theorem list_envelopes_page_zero_not_all :
    maildir_list_envelopes
        [Envelope.mk "a" 1, Envelope.mk "b" 0] 1 0 =
      .ok [Envelope.mk "a" 1] ∧
    Envelope.mk "b" 0 ∉ [Envelope.mk "a" 1] := by
  constructor
  · rfl
  · decide

/-- C5 (amended): `list_envelopes` with `page_size = 0` returns all
envelopes of the folder (for any requested page), and a requested page
beyond the computed range (`page * page_size` exceeding the envelope
count) fails with the out-of-bounds pagination error rather than returning
an empty result — for the maildir backend and the notmuch backend alike. -/
theorem list_envelopes_page_size_zero_all_and_oob_error :
    (∀ (es : List Envelope) (page : Nat),
      maildir_list_envelopes es 0 page = .ok (sortByDateDesc es)) ∧
    (∀ (es : List Envelope) (ps page : Nat), page * ps > es.length →
      maildir_list_envelopes es ps page =
        .error (.GetEnvelopesOutOfBoundsError (page * ps + 1))) ∧
    (∀ (f : String) (es : List Envelope)
        (sorter : List Envelope → List Envelope) (page : Nat),
      (sorter es).length = es.length →
      notmuch_list_envelopes f es sorter 0 page = .ok (sorter es)) ∧
    (∀ (f : String) (es : List Envelope)
        (sorter : List Envelope → List Envelope) (ps page : Nat),
      page * ps > es.length →
      notmuch_list_envelopes f es sorter ps page =
        .error (.GetEnvelopesOutOfBoundsError f (page * ps + 1))) := by
  refine ⟨fun es page => ?_, fun es ps page h => ?_, fun f es sorter page hlen => ?_,
    fun f es sorter ps page h => ?_⟩
  · have hlen := sortByDateDesc_length es
    simp only [maildir_list_envelopes, Nat.mul_zero]
    rw [if_neg (by omega)]
    simp [List.take_of_length_le, hlen]
  · simp only [maildir_list_envelopes]
    rw [if_pos h]
  · simp only [notmuch_list_envelopes, Nat.mul_zero]
    rw [if_neg (by omega)]
    simp [List.take_of_length_le, hlen]
  · simp only [notmuch_list_envelopes]
    rw [if_pos h]

/-- Witness for `list_envelopes_page_size_zero_all_and_oob_error` at
one-envelope folders. -/
theorem list_envelopes_page_size_zero_all_and_oob_error_witness :
    (2 * 1 > ([Envelope.mk "a" 5] : List Envelope).length ∧
      maildir_list_envelopes [Envelope.mk "a" 5] 1 2 =
        .error (.GetEnvelopesOutOfBoundsError (2 * 1 + 1))) ∧
    ((id ([Envelope.mk "a" 5] : List Envelope)).length =
        ([Envelope.mk "a" 5] : List Envelope).length ∧
      notmuch_list_envelopes "INBOX" [Envelope.mk "a" 5] id 0 7 =
        .ok (id [Envelope.mk "a" 5])) := by
  refine ⟨⟨by decide, ?_⟩, ⟨rfl, ?_⟩⟩
  · exact list_envelopes_page_size_zero_all_and_oob_error.2.1
      [Envelope.mk "a" 5] 1 2 (by decide)
  · exact list_envelopes_page_size_zero_all_and_oob_error.2.2.1
      "INBOX" [Envelope.mk "a" 5] id 7 rfl

/-- C10: a requested page with `page * page_size` exactly equal to the
number of envelopes succeeds with an empty envelope list; the out-of-bounds
pagination error is raised exactly when `page * page_size` strictly exceeds
the envelope count — for both the maildir and the notmuch backends. -/
theorem list_envelopes_boundary_page :
    (∀ (es : List Envelope) (ps page : Nat), page * ps = es.length →
      maildir_list_envelopes es ps page = .ok []) ∧
    (∀ (es : List Envelope) (ps page : Nat),
      maildir_list_envelopes es ps page =
          .error (.GetEnvelopesOutOfBoundsError (page * ps + 1)) ↔
        page * ps > es.length) ∧
    (∀ (f : String) (es : List Envelope)
        (sorter : List Envelope → List Envelope) (ps page : Nat),
      page * ps = es.length →
      notmuch_list_envelopes f es sorter ps page = .ok []) ∧
    (∀ (f : String) (es : List Envelope)
        (sorter : List Envelope → List Envelope) (ps page : Nat),
      notmuch_list_envelopes f es sorter ps page =
          .error (.GetEnvelopesOutOfBoundsError f (page * ps + 1)) ↔
        page * ps > es.length) := by
  refine ⟨fun es ps page h => ?_, fun es ps page => ?_,
    fun f es sorter ps page h => ?_, fun f es sorter ps page => ?_⟩
  · simp only [maildir_list_envelopes]
    rw [if_neg (by omega)]
    rcases Nat.eq_zero_or_pos ps with hz | hpos
    · subst hz
      have hes : es = [] := by
        cases es with
        | nil => rfl
        | cons a l => simp at h
      subst hes
      simp [sortByDateDesc]
    · rw [if_neg (by omega)]
      have : min es.length (page * ps + ps) - page * ps = 0 := by omega
      simp [this]
  · constructor
    · intro hres
      by_contra hgt
      simp only [maildir_list_envelopes] at hres
      rw [if_neg hgt] at hres
      cases hres
    · intro hgt
      simp only [maildir_list_envelopes]
      rw [if_pos hgt]
  · simp only [notmuch_list_envelopes]
    rw [if_neg (by omega)]
    rcases Nat.eq_zero_or_pos ps with hz | hpos
    · subst hz
      have hes : es = [] := by
        cases es with
        | nil => rfl
        | cons a l => simp at h
      subst hes
      simp
    · rw [if_neg (by omega)]
      have : min es.length (page * ps + ps) - page * ps = 0 := by omega
      simp [this]
  · constructor
    · intro hres
      by_contra hgt
      simp only [notmuch_list_envelopes] at hres
      rw [if_neg hgt] at hres
      cases hres
    · intro hgt
      simp only [notmuch_list_envelopes]
      rw [if_pos hgt]

/-- Witness for `list_envelopes_boundary_page`: page 1 of size 2 over two
envelopes is the exact boundary and succeeds empty. -/
theorem list_envelopes_boundary_page_witness :
    (1 * 2 = ([Envelope.mk "a" 1, Envelope.mk "b" 0] : List Envelope).length ∧
      maildir_list_envelopes [Envelope.mk "a" 1, Envelope.mk "b" 0] 2 1 =
        .ok []) ∧
    notmuch_list_envelopes "INBOX" [Envelope.mk "a" 1, Envelope.mk "b" 0]
        id 2 1 = .ok [] := by
  refine ⟨⟨by decide, ?_⟩, ?_⟩
  · exact list_envelopes_boundary_page.1
      [Envelope.mk "a" 1, Envelope.mk "b" 0] 2 1 (by decide)
  · exact list_envelopes_boundary_page.2.2.1
      "INBOX" [Envelope.mk "a" 1, Envelope.mk "b" 0] id 2 1 (by decide)

/-- Model of `backend::Error` from `src/email/src/backend/mod.rs` lines 92-134: one
"feature not available" variant per feature. -/
inductive BackendError where
  | AddFolderNotAvailableError
  | ListFoldersNotAvailableError
  | ExpungeFolderNotAvailableError
  | PurgeFolderNotAvailableError
  | DeleteFolderNotAvailableError
  | ListEnvelopesNotAvailableError
  | WatchEnvelopesNotAvailableError
  | GetEnvelopeNotAvailableError
  | AddFlagsNotAvailableError
  | SetFlagsNotAvailableError
  | RemoveFlagsNotAvailableError
  | AddMessageNotAvailableError
  | AddMessageWithFlagsNotAvailableError
  | SendMessageNotAvailableError
  | GetMessagesNotAvailableError
  | PeekMessagesNotAvailableError
  | CopyMessagesNotAvailableError
  | MoveMessagesNotAvailableError
  | DeleteMessagesNotAvailableError
  | RemoveMessagesNotAvailableError
  deriving DecidableEq, Repr

/-- The dynamic `Backend` of `src/email/src/backend/mod.rs` lines 144-194:
a context plus one optional feature per operation.  A feature
(`BackendFeature<C, dyn T>`) is a function from the context to an optional
implementation; an implementation is modelled as a state transformer over an
abstract backend world `W` (so that an unavailable feature, which
short-circuits before touching any implementation, provably produces no
effect).  Operation argument types are kept shallow: folder names and ids
are strings, messages are byte lists, list options are `(page_size, page)`. -/
structure Backend (C : Type) (W : Type) where
  context : C
  add_folder : Option (C → Option (String → W → Except BackendError (W × Unit)))
  list_folders : Option (C → Option (W → Except BackendError (W × List String)))
  expunge_folder : Option (C → Option (String → W → Except BackendError (W × Unit)))
  purge_folder : Option (C → Option (String → W → Except BackendError (W × Unit)))
  delete_folder : Option (C → Option (String → W → Except BackendError (W × Unit)))
  get_envelope : Option (C → Option (String → List String → W → Except BackendError (W × Envelope)))
  list_envelopes : Option (C → Option (String → Nat → Nat → W → Except BackendError (W × List Envelope)))
  watch_envelopes : Option (C → Option (String → W → Except BackendError (W × Unit)))
  add_flags : Option (C → Option (String → List String → Flags → W → Except BackendError (W × Unit)))
  set_flags : Option (C → Option (String → List String → Flags → W → Except BackendError (W × Unit)))
  remove_flags : Option (C → Option (String → List String → Flags → W → Except BackendError (W × Unit)))
  add_message : Option (C → Option (String → List Nat → Flags → W → Except BackendError (W × String)))
  send_message : Option (C → Option (List Nat → W → Except BackendError (W × Unit)))
  peek_messages : Option (C → Option (String → List String → W → Except BackendError (W × List (List Nat))))
  get_messages : Option (C → Option (String → List String → W → Except BackendError (W × List (List Nat))))
  copy_messages : Option (C → Option (String → String → List String → W → Except BackendError (W × Unit)))
  move_messages : Option (C → Option (String → String → List String → W → Except BackendError (W × Unit)))
  delete_messages : Option (C → Option (String → List String → W → Except BackendError (W × Unit)))
  remove_messages : Option (C → Option (String → List String → W → Except BackendError (W × Unit)))

variable {C W : Type}

/-- Model of `Backend::add_folder` (`src/email/src/backend/mod.rs` lines 202-212):
resolve the optional feature against the context, fail with the feature's
own availability error when absent. -/
def Backend.add_folder_op (b : Backend C W) (folder : String) (w : W) :
    Except BackendError (W × Unit) :=
  match b.add_folder.bind (fun f => f b.context) with
  | none => .error .AddFolderNotAvailableError
  | some op => op folder w

/-- Model of `Backend::list_folders` (lines 214-224). -/
def Backend.list_folders_op (b : Backend C W) (w : W) :
    Except BackendError (W × List String) :=
  match b.list_folders.bind (fun f => f b.context) with
  | none => .error .ListFoldersNotAvailableError
  | some op => op w

/-- Model of `Backend::expunge_folder` (lines 226-236). -/
def Backend.expunge_folder_op (b : Backend C W) (folder : String) (w : W) :
    Except BackendError (W × Unit) :=
  match b.expunge_folder.bind (fun f => f b.context) with
  | none => .error .ExpungeFolderNotAvailableError
  | some op => op folder w

/-- Model of `Backend::purge_folder` (lines 238-248). -/
def Backend.purge_folder_op (b : Backend C W) (folder : String) (w : W) :
    Except BackendError (W × Unit) :=
  match b.purge_folder.bind (fun f => f b.context) with
  | none => .error .PurgeFolderNotAvailableError
  | some op => op folder w

/-- Model of `Backend::delete_folder` (lines 250-260). -/
def Backend.delete_folder_op (b : Backend C W) (folder : String) (w : W) :
    Except BackendError (W × Unit) :=
  match b.delete_folder.bind (fun f => f b.context) with
  | none => .error .DeleteFolderNotAvailableError
  | some op => op folder w

/-- Model of `Backend::get_envelope` (lines 262-272). -/
def Backend.get_envelope_op (b : Backend C W) (folder : String)
    (id : List String) (w : W) : Except BackendError (W × Envelope) :=
  match b.get_envelope.bind (fun f => f b.context) with
  | none => .error .GetEnvelopeNotAvailableError
  | some op => op folder id w

/-- Model of `Backend::list_envelopes` (lines 274-284). -/
def Backend.list_envelopes_op (b : Backend C W) (folder : String)
    (page_size page : Nat) (w : W) : Except BackendError (W × List Envelope) :=
  match b.list_envelopes.bind (fun f => f b.context) with
  | none => .error .ListEnvelopesNotAvailableError
  | some op => op folder page_size page w

/-- Model of `Backend::watch_envelopes` (lines 286-296). -/
def Backend.watch_envelopes_op (b : Backend C W) (folder : String) (w : W) :
    Except BackendError (W × Unit) :=
  match b.watch_envelopes.bind (fun f => f b.context) with
  | none => .error .WatchEnvelopesNotAvailableError
  | some op => op folder w

/-- Model of `Backend::add_flags` (lines 298-308). -/
def Backend.add_flags_op (b : Backend C W) (folder : String) (id : List String)
    (flags : Flags) (w : W) : Except BackendError (W × Unit) :=
  match b.add_flags.bind (fun f => f b.context) with
  | none => .error .AddFlagsNotAvailableError
  | some op => op folder id flags w

/-- Model of `Backend::set_flags` (lines 310-320). -/
def Backend.set_flags_op (b : Backend C W) (folder : String) (id : List String)
    (flags : Flags) (w : W) : Except BackendError (W × Unit) :=
  match b.set_flags.bind (fun f => f b.context) with
  | none => .error .SetFlagsNotAvailableError
  | some op => op folder id flags w

/-- Model of `Backend::remove_flags` (lines 322-332). -/
def Backend.remove_flags_op (b : Backend C W) (folder : String)
    (id : List String) (flags : Flags) (w : W) : Except BackendError (W × Unit) :=
  match b.remove_flags.bind (fun f => f b.context) with
  | none => .error .RemoveFlagsNotAvailableError
  | some op => op folder id flags w

/-- Model of `Backend::add_message_with_flags` (lines 334-349): resolved through the
`add_message` feature; its absence surfaces `AddMessageNotAvailableError`
(the enum's `AddMessageWithFlagsNotAvailableError` variant is unused by this
implementation). -/
def Backend.add_message_with_flags_op (b : Backend C W) (folder : String)
    (msg : List Nat) (flags : Flags) (w : W) : Except BackendError (W × String) :=
  match b.add_message.bind (fun f => f b.context) with
  | none => .error .AddMessageNotAvailableError
  | some op => op folder msg flags w

/-- Model of `Backend::send_message` (lines 351-361). -/
def Backend.send_message_op (b : Backend C W) (msg : List Nat) (w : W) :
    Except BackendError (W × Unit) :=
  match b.send_message.bind (fun f => f b.context) with
  | none => .error .SendMessageNotAvailableError
  | some op => op msg w

/-- Model of `Backend::peek_messages` (lines 363-373). -/
def Backend.peek_messages_op (b : Backend C W) (folder : String)
    (id : List String) (w : W) : Except BackendError (W × List (List Nat)) :=
  match b.peek_messages.bind (fun f => f b.context) with
  | none => .error .PeekMessagesNotAvailableError
  | some op => op folder id w

/-- Model of `Backend::get_messages` (lines 375-385). -/
def Backend.get_messages_op (b : Backend C W) (folder : String)
    (id : List String) (w : W) : Except BackendError (W × List (List Nat)) :=
  match b.get_messages.bind (fun f => f b.context) with
  | none => .error .GetMessagesNotAvailableError
  | some op => op folder id w

/-- Model of `Backend::copy_messages` (lines 387-397). -/
def Backend.copy_messages_op (b : Backend C W) (from_folder to_folder : String)
    (id : List String) (w : W) : Except BackendError (W × Unit) :=
  match b.copy_messages.bind (fun f => f b.context) with
  | none => .error .CopyMessagesNotAvailableError
  | some op => op from_folder to_folder id w

/-- Model of `Backend::move_messages` (lines 399-409). -/
def Backend.move_messages_op (b : Backend C W) (from_folder to_folder : String)
    (id : List String) (w : W) : Except BackendError (W × Unit) :=
  match b.move_messages.bind (fun f => f b.context) with
  | none => .error .MoveMessagesNotAvailableError
  | some op => op from_folder to_folder id w

/-- Model of `Backend::delete_messages` (lines 411-421). -/
def Backend.delete_messages_op (b : Backend C W) (folder : String)
    (id : List String) (w : W) : Except BackendError (W × Unit) :=
  match b.delete_messages.bind (fun f => f b.context) with
  | none => .error .DeleteMessagesNotAvailableError
  | some op => op folder id w

/-- Model of `Backend::remove_messages` (lines 423-433). -/
def Backend.remove_messages_op (b : Backend C W) (folder : String)
    (id : List String) (w : W) : Except BackendError (W × Unit) :=
  match b.remove_messages.bind (fun f => f b.context) with
  | none => .error .RemoveMessagesNotAvailableError
  | some op => op folder id w

/-- C6: for every operation of the dynamic backend, invoking it with the
corresponding feature unset (`None`) returns that operation's own
"feature not available" error (for `add_message_with_flags`: the
`add_message` feature's error) and — the error carrying no world — performs
no effect at all. -/
theorem backend_unavailable_feature_errors (b : Backend C W)
    (folder from_folder to_folder : String) (id : List String) (flags : Flags)
    (msg : List Nat) (page_size page : Nat) (w : W) :
    (b.add_folder = none →
      b.add_folder_op folder w = .error .AddFolderNotAvailableError) ∧
    (b.list_folders = none →
      b.list_folders_op w = .error .ListFoldersNotAvailableError) ∧
    (b.expunge_folder = none →
      b.expunge_folder_op folder w = .error .ExpungeFolderNotAvailableError) ∧
    (b.purge_folder = none →
      b.purge_folder_op folder w = .error .PurgeFolderNotAvailableError) ∧
    (b.delete_folder = none →
      b.delete_folder_op folder w = .error .DeleteFolderNotAvailableError) ∧
    (b.get_envelope = none →
      b.get_envelope_op folder id w = .error .GetEnvelopeNotAvailableError) ∧
    (b.list_envelopes = none →
      b.list_envelopes_op folder page_size page w =
        .error .ListEnvelopesNotAvailableError) ∧
    (b.watch_envelopes = none →
      b.watch_envelopes_op folder w = .error .WatchEnvelopesNotAvailableError) ∧
    (b.add_flags = none →
      b.add_flags_op folder id flags w = .error .AddFlagsNotAvailableError) ∧
    (b.set_flags = none →
      b.set_flags_op folder id flags w = .error .SetFlagsNotAvailableError) ∧
    (b.remove_flags = none →
      b.remove_flags_op folder id flags w = .error .RemoveFlagsNotAvailableError) ∧
    (b.add_message = none →
      b.add_message_with_flags_op folder msg flags w =
        .error .AddMessageNotAvailableError) ∧
    (b.send_message = none →
      b.send_message_op msg w = .error .SendMessageNotAvailableError) ∧
    (b.peek_messages = none →
      b.peek_messages_op folder id w = .error .PeekMessagesNotAvailableError) ∧
    (b.get_messages = none →
      b.get_messages_op folder id w = .error .GetMessagesNotAvailableError) ∧
    (b.copy_messages = none →
      b.copy_messages_op from_folder to_folder id w =
        .error .CopyMessagesNotAvailableError) ∧
    (b.move_messages = none →
      b.move_messages_op from_folder to_folder id w =
        .error .MoveMessagesNotAvailableError) ∧
    (b.delete_messages = none →
      b.delete_messages_op folder id w = .error .DeleteMessagesNotAvailableError) ∧
    (b.remove_messages = none →
      b.remove_messages_op folder id w = .error .RemoveMessagesNotAvailableError) := by
  refine ⟨fun h => ?_, fun h => ?_, fun h => ?_, fun h => ?_, fun h => ?_,
    fun h => ?_, fun h => ?_, fun h => ?_, fun h => ?_, fun h => ?_, fun h => ?_,
    fun h => ?_, fun h => ?_, fun h => ?_, fun h => ?_, fun h => ?_, fun h => ?_,
    fun h => ?_, fun h => ?_⟩ <;>
  simp [Backend.add_folder_op, Backend.list_folders_op, Backend.expunge_folder_op,
    Backend.purge_folder_op, Backend.delete_folder_op, Backend.get_envelope_op,
    Backend.list_envelopes_op, Backend.watch_envelopes_op, Backend.add_flags_op,
    Backend.set_flags_op, Backend.remove_flags_op,
    Backend.add_message_with_flags_op, Backend.send_message_op,
    Backend.peek_messages_op, Backend.get_messages_op, Backend.copy_messages_op,
    Backend.move_messages_op, Backend.delete_messages_op,
    Backend.remove_messages_op, h]

/-- A featureless backend over trivial context and world, for the witness. -/
def emptyBackend : Backend Unit Unit :=
  ⟨(), none, none, none, none, none, none, none, none, none, none, none, none,
   none, none, none, none, none, none, none⟩

/-- Witness for `backend_unavailable_feature_errors` on the featureless
backend: every operation returns its availability error. -/
theorem backend_unavailable_feature_errors_witness :
    emptyBackend.add_folder = none ∧
    emptyBackend.add_folder_op "F" () = .error .AddFolderNotAvailableError ∧
    emptyBackend.list_folders_op () = .error .ListFoldersNotAvailableError ∧
    emptyBackend.expunge_folder_op "F" () = .error .ExpungeFolderNotAvailableError ∧
    emptyBackend.purge_folder_op "F" () = .error .PurgeFolderNotAvailableError ∧
    emptyBackend.delete_folder_op "F" () = .error .DeleteFolderNotAvailableError ∧
    emptyBackend.get_envelope_op "F" ["1"] () = .error .GetEnvelopeNotAvailableError ∧
    emptyBackend.list_envelopes_op "F" 0 0 () = .error .ListEnvelopesNotAvailableError ∧
    emptyBackend.watch_envelopes_op "F" () = .error .WatchEnvelopesNotAvailableError ∧
    emptyBackend.add_flags_op "F" ["1"] ∅ () = .error .AddFlagsNotAvailableError ∧
    emptyBackend.set_flags_op "F" ["1"] ∅ () = .error .SetFlagsNotAvailableError ∧
    emptyBackend.remove_flags_op "F" ["1"] ∅ () = .error .RemoveFlagsNotAvailableError ∧
    emptyBackend.add_message_with_flags_op "F" [0] ∅ () =
      .error .AddMessageNotAvailableError ∧
    emptyBackend.send_message_op [0] () = .error .SendMessageNotAvailableError ∧
    emptyBackend.peek_messages_op "F" ["1"] () = .error .PeekMessagesNotAvailableError ∧
    emptyBackend.get_messages_op "F" ["1"] () = .error .GetMessagesNotAvailableError ∧
    emptyBackend.copy_messages_op "F" "G" ["1"] () = .error .CopyMessagesNotAvailableError ∧
    emptyBackend.move_messages_op "F" "G" ["1"] () = .error .MoveMessagesNotAvailableError ∧
    emptyBackend.delete_messages_op "F" ["1"] () = .error .DeleteMessagesNotAvailableError ∧
    emptyBackend.remove_messages_op "F" ["1"] () = .error .RemoveMessagesNotAvailableError := by
  have H := backend_unavailable_feature_errors emptyBackend "F" "F" "G" ["1"] ∅
    [0] 0 0 ()
  exact ⟨rfl, H.1 rfl, H.2.1 rfl, H.2.2.1 rfl, H.2.2.2.1 rfl, H.2.2.2.2.1 rfl,
    H.2.2.2.2.2.1 rfl, H.2.2.2.2.2.2.1 rfl, H.2.2.2.2.2.2.2.1 rfl,
    H.2.2.2.2.2.2.2.2.1 rfl, H.2.2.2.2.2.2.2.2.2.1 rfl,
    H.2.2.2.2.2.2.2.2.2.2.1 rfl, H.2.2.2.2.2.2.2.2.2.2.2.1 rfl,
    H.2.2.2.2.2.2.2.2.2.2.2.2.1 rfl, H.2.2.2.2.2.2.2.2.2.2.2.2.2.1 rfl,
    H.2.2.2.2.2.2.2.2.2.2.2.2.2.2.1 rfl,
    H.2.2.2.2.2.2.2.2.2.2.2.2.2.2.2.1 rfl,
    H.2.2.2.2.2.2.2.2.2.2.2.2.2.2.2.2.1 rfl,
    H.2.2.2.2.2.2.2.2.2.2.2.2.2.2.2.2.2.1 rfl,
    H.2.2.2.2.2.2.2.2.2.2.2.2.2.2.2.2.2.2 rfl⟩

/-- One maildir `cur` entry: internal id, raw bytes, flag set. -/
structure MailEntry where
  id : String
  raw : List Nat
  flags : Flags
  deriving DecidableEq

/-- Stable insertion by ascending first component (model of the stable
`sort_by_key(|(pos, _)| *pos)` in `preview_emails`). -/
def insertByPos (p : Nat × MailEntry) :
    List (Nat × MailEntry) → List (Nat × MailEntry)
  | [] => [p]
  | x :: xs => if x.1 < p.1 then x :: insertByPos p xs else p :: x :: xs

/-- Stable sort by ascending first component. -/
def sortByPos (l : List (Nat × MailEntry)) : List (Nat × MailEntry) :=
  l.foldr insertByPos []

/-- Model of `MaildirBackend::preview_emails`
(`src/email/src/backend/maildir/mod.rs` lines 369-403): walk the folder's
entries, keep those whose id occurs in the requested ids (tagged with the
position of the id in the request), sort by that position, return the raw
messages.  The folder is returned unchanged: the function only reads. -/
def preview_emails (folder : List MailEntry) (internal_ids : List String) :
    List MailEntry × List (List Nat) :=
  let tagged := folder.filterMap (fun e =>
    (internal_ids.findIdx? (fun i => i == e.id)).map (fun pos => (pos, e)))
  (folder, (sortByPos tagged).map (fun pe => pe.2.raw))

/-- Model of `Flag::is_standard` filter behind `Flags::to_normalized_string`: the
normalized maildir flag string keeps the five standard flags and drops
`Custom` ones. -/
def Flag.isStandard : Flag → Bool
  | .Custom _ => false
  | _ => true

/-- The flag set surviving `Flags::to_normalized_string`. -/
def normalizeFlags (flags : Flags) : Flags :=
  flags.filter (fun f => f.isStandard = true)

/-- Model of `MaildirBackend::add_flags` (lines 478-498): add the normalized flags to
each requested entry. -/
def mdAdd_flags (folder : List MailEntry) (internal_ids : List String)
    (flags : Flags) : List MailEntry :=
  folder.map (fun e =>
    if e.id ∈ internal_ids then { e with flags := e.flags ∪ normalizeFlags flags }
    else e)

/-- Model of `MaildirBackend::get_emails` (lines 405-415): preview, then add the
`Seen` flag to the requested ids. -/
def get_emails (folder : List MailEntry) (internal_ids : List String) :
    List MailEntry × List (List Nat) :=
  let pr := preview_emails folder internal_ids
  (mdAdd_flags pr.1 internal_ids {Flag.Seen}, pr.2)

/-- C7: `preview_emails` returns the raw message bytes and leaves every
entry's flags (the whole folder state) unchanged — in particular it never
sets `Seen` — while `get_emails` returns the same messages and additionally
adds the `Seen` flag to every requested entry, leaving the others
untouched. -/
theorem preview_pure_get_adds_seen (folder : List MailEntry)
    (internal_ids : List String) :
    (preview_emails folder internal_ids).1 = folder ∧
    (get_emails folder internal_ids).2 =
      (preview_emails folder internal_ids).2 ∧
    (get_emails folder internal_ids).1 =
      folder.map (fun e =>
        if e.id ∈ internal_ids then { e with flags := insert Flag.Seen e.flags }
        else e) := by
  refine ⟨rfl, rfl, ?_⟩
  have hnorm : normalizeFlags {Flag.Seen} = {Flag.Seen} := rfl
  have hseen : ∀ fs : Flags, fs ∪ ({Flag.Seen} : Flags) = insert Flag.Seen fs :=
    fun fs => by rw [Finset.insert_eq, Finset.union_comm]
  simp [get_emails, preview_emails, mdAdd_flags, hnorm, hseen]

/-- Model of `FilterHeaders` from `src/mml/src/message/interpreter.rs` lines 29-39. -/
inductive FilterHeaders where
  | All
  | Include (headers : List String)
  | Exclude (headers : List String)
  deriving DecidableEq

/-- Model of `Message::header(key)` of the `mail_parser` crate as used by the
`Include` branch: the last header carrying the name.  Header values are
carried already displayed (`header::display_value` lives outside `src/`). -/
def msgHeader (headers : List (String × String)) (key : String) : Option String :=
  (headers.reverse.find? (fun h => h.1 == key)).map Prod.snd

/-- The header selection of `MimeInterpreter::from_msg`
(`src/mml/src/message/interpreter.rs` lines 201-223): `All` keeps every
header in source order, `Include` walks the include list and keeps the keys
the message has (in include-list order), `Exclude` keeps source order minus
the excluded names. -/
def selectedHeaders (filter : FilterHeaders) (headers : List (String × String)) :
    List (String × String) :=
  match filter with
  | .All => headers
  | .Include keys =>
    keys.filterMap (fun k => (msgHeader headers k).map (fun v => (k, v)))
  | .Exclude keys => headers.filter (fun h => !(keys.contains h.1))

/-- The emitted header block: one `key: value\n` line per selected header. -/
def headerLines (hs : List (String × String)) : String :=
  hs.foldl (fun mml h => mml ++ (h.1 ++ ": " ++ h.2 ++ "\n")) ""

/-- Rust `str::trim_end`: drop trailing whitespace. -/
def rtrim (s : String) : String :=
  ⟨(s.data.reverse.dropWhile Char.isWhitespace).reverse⟩

/-- Model of `MimeInterpreter::from_msg` (`src/mml/src/message/interpreter.rs` lines
198-242): emit the selected header lines; append one blank line when the
header block is nonempty; append the body (interpreted by the MIME body
interpreter, which lives outside `src/` and is taken as the `body` input)
trimmed of trailing whitespace; append exactly one newline. -/
def from_msg (filter : FilterHeaders) (headers : List (String × String))
    (body : String) : String :=
  let mml := headerLines (selectedHeaders filter headers)
  let mml := if mml = "" then mml else mml ++ "\n"
  mml ++ rtrim body ++ "\n"

/-- Number of newline characters ending the string. -/
def trailingNewlines (s : String) : Nat :=
  (s.data.reverse.takeWhile (fun c => c == '\n')).length

lemma dropWhile_head_false (p : Char → Bool) (l : List Char) :
    ∀ c cs, l.dropWhile p = c :: cs → p c = false := by
  induction l with
  | nil => intro c cs h; simp [List.dropWhile] at h
  | cons x xs ih =>
    intro c cs h
    by_cases hp : p x
    · rw [List.dropWhile_cons_of_pos hp] at h
      exact ih c cs h
    · rw [List.dropWhile_cons_of_neg hp] at h
      cases h
      simpa using hp

lemma rtrim_data_rev (s : String) :
    (rtrim s).data.reverse = s.data.reverse.dropWhile Char.isWhitespace := by
  simp [rtrim]

lemma trailingNewlines_one (X : String) (c : Char) (cs : List Char)
    (hrev : X.data.reverse = c :: cs) (hc : (c == '\n') = false) :
    trailingNewlines (X ++ "\n") = 1 := by
  unfold trailingNewlines
  rw [String.data_append]
  rw [show ("\n" : String).data = ['\n'] from rfl]
  rw [List.reverse_append]
  simp [hrev, List.takeWhile_cons, hc]

lemma trailingNewlines_two (X : String) (c : Char) (cs : List Char)
    (hrev : X.data.reverse = '\n' :: c :: cs) (hc : (c == '\n') = false) :
    trailingNewlines (X ++ "\n") = 2 := by
  unfold trailingNewlines
  rw [String.data_append]
  rw [show ("\n" : String).data = ['\n'] from rfl]
  rw [List.reverse_append]
  simp [hrev, List.takeWhile_cons, hc]

lemma headerLines_concat (L : List (String × String)) (k v : String) :
    headerLines (L ++ [(k, v)]) = headerLines L ++ (k ++ ": " ++ v ++ "\n") := by
  simp [headerLines]

lemma headerLines_concat_rev_shape (L : List (String × String)) (k v : String)
    (hv : ∀ c ∈ v.data, c ≠ '\n') :
    ∃ c cs, (headerLines (L ++ [(k, v)])).data.reverse = '\n' :: c :: cs ∧
      (c == '\n') = false := by
  rw [headerLines_concat]
  cases hvd : v.data.reverse with
  | nil =>
    refine ⟨' ', ':' :: (k.data.reverse ++ (headerLines L).data.reverse), ?_, by decide⟩
    have hv0 : v.data = [] := by
      have := congrArg List.reverse hvd
      simpa using this
    simp [String.data_append, List.reverse_append, hvd, hv0,
      show (": " : String).data = [':', ' '] from rfl]
  | cons c0 cs0 =>
    have hc0 : c0 ∈ v.data := by
      have : c0 ∈ v.data.reverse := by rw [hvd]; simp
      simpa using this
    have hne : (c0 == '\n') = false := by
      have := hv c0 hc0
      simpa using this
    refine ⟨c0, cs0 ++ (' ' :: ':' :: (k.data.reverse ++ (headerLines L).data.reverse)),
      ?_, hne⟩
    simp [String.data_append, List.reverse_append, hvd,
      show (": " : String).data = [':', ' '] from rfl]

lemma headerLines_concat_ne_empty (L : List (String × String)) (k v : String) :
    headerLines (L ++ [(k, v)]) ≠ "" := by
  rw [headerLines_concat]
  intro hcon
  have := congrArg String.data hcon
  simp [String.data_append] at this

/-- C8 (amended): when the selected header block is empty, no blank line is
emitted; when it is nonempty it is followed by exactly one blank line before
the body (given single-line header values); and whenever the interpreted
body is nonempty after trimming its trailing whitespace, the whole output
ends with exactly one trailing newline. -/
theorem from_msg_blank_line_and_trailing_newline (filter : FilterHeaders)
    (headers : List (String × String)) (body : String) :
    (selectedHeaders filter headers = [] →
      from_msg filter headers body = rtrim body ++ "\n") ∧
    (selectedHeaders filter headers ≠ [] →
      from_msg filter headers body =
        headerLines (selectedHeaders filter headers) ++ "\n" ++
          (rtrim body ++ "\n")) ∧
    (selectedHeaders filter headers ≠ [] →
      (∀ p ∈ selectedHeaders filter headers, ∀ c ∈ p.2.data, c ≠ '\n') →
      trailingNewlines (headerLines (selectedHeaders filter headers) ++ "\n") = 2) ∧
    (rtrim body ≠ "" → trailingNewlines (from_msg filter headers body) = 1) := by
  refine ⟨fun hsel => ?_, fun hsel => ?_, fun hsel hv => ?_, fun hbody => ?_⟩
  · simp [from_msg, hsel, headerLines]
  · rcases (selectedHeaders filter headers).eq_nil_or_concat with h | ⟨L, p, hLp⟩
    · exact absurd h hsel
    · obtain ⟨k, v⟩ := p
      rw [from_msg]
      rw [hLp, if_neg (by rw [List.concat_eq_append]; exact headerLines_concat_ne_empty L k v)]
      simp [String.append_assoc]
  · rcases (selectedHeaders filter headers).eq_nil_or_concat with h | ⟨L, p, hLp⟩
    · exact absurd h hsel
    · obtain ⟨k, v⟩ := p
      rw [hLp, List.concat_eq_append]
      obtain ⟨c, cs, hrev, hc⟩ := headerLines_concat_rev_shape L k v
        (fun c hcv => hv (k, v) (by rw [hLp]; simp) c hcv)
      exact trailingNewlines_two _ c cs hrev hc
  · have hz : (rtrim body).data.reverse ≠ [] := by
      intro hcon
      apply hbody
      have hdata : (rtrim body).data = [] := by
        simpa using congrArg List.reverse hcon
      have hmk : rtrim body = String.mk (rtrim body).data := rfl
      rw [hmk, hdata]
    cases hrw : (rtrim body).data.reverse with
    | nil => exact absurd hrw hz
    | cons c cs =>
      have hcws : Char.isWhitespace c = false := by
        have := rtrim_data_rev body
        rw [hrw] at this
        exact dropWhile_head_false Char.isWhitespace body.data.reverse c cs this.symm
      have hcnl : (c == '\n') = false := by
        cases hcc : c == '\n'
        · rfl
        · exfalso
          have : c = '\n' := by simpa using hcc
          rw [this] at hcws
          simp [Char.isWhitespace] at hcws
      rw [from_msg]
      set M := (if headerLines (selectedHeaders filter headers) = "" then
        headerLines (selectedHeaders filter headers)
        else headerLines (selectedHeaders filter headers) ++ "\n") with hM
      have hXrev : (M ++ rtrim body).data.reverse = c :: (cs ++ M.data.reverse) := by
        rw [String.data_append, List.reverse_append, hrw]
        rfl
      exact trailingNewlines_one (M ++ rtrim body) c (cs ++ M.data.reverse) hXrev hcnl

/-- C8 counterexample: on a message whose interpreted body trims to the
empty string (e.g. an empty `text/plain` part), with one selected header,
the output ends with three newlines, not exactly one. -/
theorem from_msg_trailing_newline_not_always_single :
    selectedHeaders (.Include ["From"]) [("From", "from@localhost")] ≠ [] ∧
    trailingNewlines
        (from_msg (.Include ["From"]) [("From", "from@localhost")] "") = 3 := by
  constructor
  · decide
  · decide

/-- Model of `SmtpAuthConfig` (`src/email/src/smtp/config.rs`): password or OAuth
2.0 authentication. -/
inductive SmtpAuthConfig where
  | Passwd
  | OAuth2
  deriving DecidableEq, Repr

/-- Model of `mail_send::Error`, reduced to the distinction `SmtpContext::send`
makes: the authentication failure versus anything else. -/
inductive MailSendError where
  | AuthenticationFailed
  | Other (code : Nat)
  deriving DecidableEq, Repr

/-- Outcome of `SmtpContext::send`: success, a wrapped send error
(`Error::SendEmailError`), or an error bubbled out of the token refresh or
of the client rebuild. -/
inductive SmtpSendResult where
  | Ok
  | SendEmailError (e : MailSendError)
  | RefreshTokenError (code : Nat)
  | RebuildClientError (code : Nat)
  deriving DecidableEq, Repr

/-- The environment of one `send` call: outcome of the first transmission,
of `refresh_access_token`, of rebuilding the client
(`credentials` + `build_tls_client`/`build_tcp_client`), and of the retried
transmission. -/
structure SmtpEnv where
  firstSend : Option MailSendError
  refreshToken : Option Nat
  rebuildClient : Option Nat
  retrySend : Option MailSendError
  deriving DecidableEq, Repr

/-- Model of `SmtpContext::send` (`src/email/src/smtp/mod.rs` lines 51-108).  With
password auth the message is sent once and any error is surfaced.  With
OAuth 2.0, an `AuthenticationFailed` error from the first transmission
triggers a token refresh and a client rebuild followed by exactly one
retry, whose error is surfaced; any other first-attempt error, and any
refresh/rebuild error, is surfaced without retry.  Returns the result, how
many transmissions were attempted, and whether the client was rebuilt. -/
def smtp_send (auth : SmtpAuthConfig) (env : SmtpEnv) :
    SmtpSendResult × Nat × Bool :=
  match auth with
  | .Passwd =>
    match env.firstSend with
    | none => (.Ok, 1, false)
    | some e => (.SendEmailError e, 1, false)
  | .OAuth2 =>
    match env.firstSend with
    | none => (.Ok, 1, false)
    | some .AuthenticationFailed =>
      match env.refreshToken with
      | some c => (.RefreshTokenError c, 1, false)
      | none =>
        match env.rebuildClient with
        | some c => (.RebuildClientError c, 1, false)
        | none =>
          match env.retrySend with
          | none => (.Ok, 2, true)
          | some e => (.SendEmailError e, 2, true)
    | some e => (.SendEmailError e, 1, false)

/-- C9: with OAuth 2.0 auth, an authentication failure of the send is
followed by a token refresh and exactly one retry on a rebuilt client,
whose error (or success) is surfaced; any non-authentication first error is
surfaced without retry; errors of the refresh or of the rebuild are
surfaced without retry; and with password auth no retry ever happens. -/
theorem smtp_send_oauth_retries_once (env : SmtpEnv) :
    ((smtp_send .Passwd env).2.1 = 1 ∧ (smtp_send .Passwd env).2.2 = false) ∧
    (env.firstSend = none → smtp_send .Passwd env = (.Ok, 1, false)) ∧
    (∀ e, env.firstSend = some e →
      smtp_send .Passwd env = (.SendEmailError e, 1, false)) ∧
    (env.firstSend = none → smtp_send .OAuth2 env = (.Ok, 1, false)) ∧
    (∀ c, env.firstSend = some (.Other c) →
      smtp_send .OAuth2 env = (.SendEmailError (.Other c), 1, false)) ∧
    (env.firstSend = some .AuthenticationFailed → env.refreshToken = none →
      env.rebuildClient = none →
      (smtp_send .OAuth2 env).2.1 = 2 ∧ (smtp_send .OAuth2 env).2.2 = true ∧
      (env.retrySend = none → smtp_send .OAuth2 env = (.Ok, 2, true)) ∧
      (∀ e, env.retrySend = some e →
        smtp_send .OAuth2 env = (.SendEmailError e, 2, true))) ∧
    (∀ c, env.firstSend = some .AuthenticationFailed →
      env.refreshToken = some c →
      smtp_send .OAuth2 env = (.RefreshTokenError c, 1, false)) ∧
    (∀ c, env.firstSend = some .AuthenticationFailed →
      env.refreshToken = none → env.rebuildClient = some c →
      smtp_send .OAuth2 env = (.RebuildClientError c, 1, false)) := by
  refine ⟨?_, fun h => ?_, fun e h => ?_, fun h => ?_, fun c h => ?_,
    fun h1 h2 h3 => ?_, fun c h1 h2 => ?_, fun c h1 h2 h3 => ?_⟩
  · cases h : env.firstSend <;> simp [smtp_send, h]
  · simp [smtp_send, h]
  · simp [smtp_send, h]
  · simp [smtp_send, h]
  · simp [smtp_send, h]
  · refine ⟨?_, ?_, fun h4 => ?_, fun e h4 => ?_⟩
    · cases hr : env.retrySend <;> simp [smtp_send, h1, h2, h3, hr]
    · cases hr : env.retrySend <;> simp [smtp_send, h1, h2, h3, hr]
    · simp [smtp_send, h1, h2, h3, h4]
    · simp [smtp_send, h1, h2, h3, h4]
  · simp [smtp_send, h1, h2]
  · simp [smtp_send, h1, h2, h3]

/-- Witness for `smtp_send_oauth_retries_once`, at the environment where
the first OAuth transmission hits an authentication failure, refresh and
rebuild succeed, and the retry fails with a non-auth error that is
surfaced. -/
theorem smtp_send_oauth_retries_once_witness :
    (SmtpEnv.mk (some .AuthenticationFailed) none none
        (some (.Other 7))).firstSend = some .AuthenticationFailed ∧
    smtp_send .OAuth2
        (SmtpEnv.mk (some .AuthenticationFailed) none none (some (.Other 7))) =
      (.SendEmailError (.Other 7), 2, true) := by
  refine ⟨rfl, ?_⟩
  exact ((smtp_send_oauth_retries_once
    (SmtpEnv.mk (some .AuthenticationFailed) none none
      (some (.Other 7)))).2.2.2.2.2.1 rfl rfl rfl).2.2.2 (.Other 7) rfl

/-- Witness for `from_msg_blank_line_and_trailing_newline` at a one-header
message with body "Hello". -/
theorem from_msg_blank_line_and_trailing_newline_witness :
    selectedHeaders .All [("From", "from@localhost")] ≠ [] ∧
    rtrim "Hello" ≠ "" ∧
    from_msg .All [("From", "from@localhost")] "Hello" =
      headerLines (selectedHeaders .All [("From", "from@localhost")]) ++ "\n" ++
        (rtrim "Hello" ++ "\n") ∧
    trailingNewlines
      (headerLines (selectedHeaders .All [("From", "from@localhost")]) ++ "\n") = 2 ∧
    trailingNewlines (from_msg .All [("From", "from@localhost")] "Hello") = 1 := by
  have H := from_msg_blank_line_and_trailing_newline .All
    [("From", "from@localhost")] "Hello"
  exact ⟨by decide, by decide, H.2.1 (by decide), H.2.2.1 (by decide) (by decide),
    H.2.2.2 (by decide)⟩

/-- Witness for `build_patch_matches_spec_table` at the spec's scenario 1
(`Lc = L = Rc = ∅`, `R = {"Work"}`). -/
theorem build_patch_matches_spec_table_witness :
    ("Work" ∈ (build_patch ∅ ∅ ∅ {"Work"}).1 ↔
      ("Work" ∈ (∅ : Finset String) ∨ "Work" ∈ (∅ : Finset String) ∨
        "Work" ∈ (∅ : Finset String) ∨ "Work" ∈ ({"Work"} : Finset String))) ∧
    (FolderSyncHunk.Cache "Work" SyncDestination.Left).folder = "Work" := by
  refine ⟨(build_patch_matches_spec_table ∅ ∅ ∅ {"Work"}).1 "Work", ?_⟩
  exact (build_patch_matches_spec_table ∅ ∅ ∅ {"Work"}).2.2 "Work"
    (FolderSyncHunk.Cache "Work" SyncDestination.Left) (by decide)

end Pimalaya
